import Mathlib

/-!
Verification of the crossbar node startup sequencer
(`crossbar/controller/node.py`): a shallow embedding of the standalone
startup sequence, the id-generation policy, the schema extractor and the
container-component watchdog, together with theorems settling the spec
claims.

Conventions of the embedding:
* Python/JSON values are modelled by `JVal`; Python dicts by association
  lists (`Dict`) with first-match lookup and in-place overwrite, matching
  Python dict semantics for the operations the source uses.
* `json.loads` (external stdlib) is modelled at its boundary: a fenced
  block is represented by its parse outcome `Option JVal`, `none` meaning
  the parse raised.
* A markdown schema file is represented post fence-extraction: the ordered
  list of its fenced ```javascript block bodies, each as its parse outcome.
* The control-plane RPC layer is modelled by a trace of `Call`s and an
  oracle `RpcOk` saying which issued calls succeed.
-/

namespace Crossbar

/-- JSON-like values, the data manipulated by the node configuration code. -/
inductive JVal where
  | null : JVal
  | bool : Bool → JVal
  | num : Int → JVal
  | str : String → JVal
  | arr : List JVal → JVal
  | obj : List (String × JVal) → JVal

/-- Python dicts are modelled as association lists (insertion order kept). -/
abbrev Dict := List (String × JVal)

/-- Dictionary lookup, `d[k]` / `d.get(k)`: first matching key. -/
def dget : Dict → String → Option JVal
  | [], _ => none
  | (k', v) :: rest, k => if k' = k then some v else dget rest k

/-- Lookup with default, `d.get(k, dflt)`. -/
def dgetD (d : Dict) (k : String) (dflt : JVal) : JVal :=
  (dget d k).getD dflt

/-- Key membership test, `k in d`. -/
def dcontains (d : Dict) (k : String) : Bool :=
  (dget d k).isSome

/-- Key removal, the removal effect of `d.pop(k)`. -/
def derase : Dict → String → Dict
  | [], _ => []
  | kv :: rest, k => if kv.1 = k then derase rest k else kv :: derase rest k

/-- Assignment `d[k] = v`: overwrite in place if present, else append. -/
def dset : Dict → String → JVal → Dict
  | [], k, v => [(k, v)]
  | (k', v') :: rest, k, v =>
      if k' = k then (k, v) :: rest else (k', v') :: dset rest k v

/-- Python `d.update(o)`: fold `dset` over `o`'s entries in order. -/
def dupdate (d o : Dict) : Dict :=
  o.foldl (fun acc kv => dset acc kv.1 kv.2) d

/-- View a value as a dict (fields of an object, else empty). -/
def asObj : JVal → Dict
  | .obj fields => fields
  | _ => []

/-- View a value as a list (elements of an array, else empty). -/
def asArr : JVal → List JVal
  | .arr xs => xs
  | _ => []

/-- The string used when a configured `id` value is interpolated into an
identifier; validated configurations carry string ids. -/
def idString : JVal → String
  | .str s => s
  | .num n => toString n
  | _ => ""

/-- Per-element id resolution, mirroring the pattern at node.py lines
248-252 (and its copies for realms, roles, components, transports):
an explicit `id` is popped and kept, otherwise `"<kind><n>"` is assigned
and only then the counter is incremented. Returns the resolved id, the
spec with `id` removed, and the next counter value. -/
def resolveId (kind : String) (no : Nat) (spec : Dict) : String × Dict × Nat :=
  match dget spec "id" with
  | some v => (idString v, derase spec "id", no)
  | none => (kind ++ toString no, spec, no + 1)

/-- The sequence of ids the per-element resolution assigns to a list of
specs, starting from counter `no`. -/
def resolveIds (kind : String) : Nat → List Dict → List String
  | _, [] => []
  | no, spec :: rest =>
      let r := resolveId kind no spec
      r.1 :: resolveIds kind r.2.2 rest

/-! ### Schema registry

The schema registry built for one realm-start call (node.py lines
319-341). Python dict keys must be hashable, so registry keys are scalar
values; indexing with an unhashable value raises `TypeError`, which the
surrounding `except` turns into a warning (see `processDecl`). Python's
bool/int key aliasing (`True == 1`) is not modelled; configuration uris
are strings. -/

/-- Hashable scalars (admissible Python dict keys). -/
def jhashable : JVal → Bool
  | .arr _ => false
  | .obj _ => false
  | _ => true

/-- Equality of scalar registry keys. -/
def jeqKey : JVal → JVal → Bool
  | .null, .null => true
  | .bool a, .bool b => a == b
  | .num a, .num b => a == b
  | .str a, .str b => a == b
  | _, _ => false

/-- A schema registry: Python dict keyed by declaration uri. -/
abbrev Registry := List (JVal × Dict)

/-- Registry lookup `schemas[uri]`. -/
def rget : Registry → JVal → Option Dict
  | [], _ => none
  | (k, v) :: rest, u => if jeqKey k u then some v else rget rest u

/-- Registry lookup with default. -/
def rgetD (r : Registry) (u : JVal) (dflt : Dict) : Dict :=
  (rget r u).getD dflt

/-- Registry assignment `schemas[uri] = v`. -/
def rset : Registry → JVal → Dict → Registry
  | [], u, v => [(u, v)]
  | (k, v') :: rest, u, v =>
      if jeqKey k u then (u, v) :: rest else (k, v') :: rset rest u v

/-- The fixed schema-dialect marker checked at node.py line 333. -/
def wampSchemaMarker : String := "http://wamp.ws/schema#"

/-- Running state of the schema extraction for one realm-start call:
the registry under construction, the `cnt_files` / `cnt_decls` counters
and the number of warnings logged so far. -/
structure SchemaResult where
  schemas : Registry
  cnt_files : Nat
  cnt_decls : Nat
  warnings : Nat

/-- Processing of one fenced block body, mirroring the `try`/`except` at
node.py lines 331-340. The block is given by its `json.loads` outcome
(`none` = the parse raised, caught as a warning). A parsed mapping with
the dialect marker has its `uri` read with `o['uri']`: a missing `uri`
raises `KeyError`, and an unhashable `uri` value makes `schemas[uri]`
raise `TypeError`; both are caught by the same `except` and logged as a
warning. A parsed value that is not a mapping carrying the marker falls
out of the `if` silently. An accepted declaration is shallow-merged into
the registry under its uri and counted. -/
def processDecl (st : SchemaResult) (block : Option JVal) : SchemaResult :=
  match block with
  | none => { st with warnings := st.warnings + 1 }
  | some o =>
    match o with
    | .obj fields =>
      match dget fields "$schema" with
      | some (.str marker) =>
        if marker = wampSchemaMarker then
          match dget fields "uri" with
          | some uri =>
            if jhashable uri then
              { st with
                  schemas := rset st.schemas uri (dupdate (rgetD st.schemas uri []) fields),
                  cnt_decls := st.cnt_decls + 1 }
            else
              { st with warnings := st.warnings + 1 }
          | none => { st with warnings := st.warnings + 1 }
        else st
      | _ => st
    | _ => st

/-- Processing of one markdown file (node.py lines 325-341): bump
`cnt_files`, then process each fenced block body in order. A file is
represented post fence-extraction as the ordered list of its fenced
block bodies, each given by its parse outcome. -/
def processSchemaFile (st : SchemaResult) (blocks : List (Option JVal)) : SchemaResult :=
  blocks.foldl processDecl { st with cnt_files := st.cnt_files + 1 }

/-- Full schema extraction for one realm-start call over the files listed
under `schemas`, in order. -/
def extractSchemas (files : List (List (Option JVal))) : SchemaResult :=
  files.foldl processSchemaFile { schemas := [], cnt_files := 0, cnt_decls := 0, warnings := 0 }

/-! ### The startup sequencer

`_startup_standalone` (node.py lines 216-435) is modelled as a function
producing the ordered trace of control-plane calls it issues, together
with the error that aborted it, if any. Each RPC/subscribe is a
suspension point whose success is given by an oracle `RpcOk`; a failing
call raises, which aborts the sequencer (the failing call still appears
in the trace: it was issued). File contents are supplied by `FS`,
mapping a listed schema file name to its fenced-block parse outcomes
(a missing file would raise outside the per-block `try` and is not
modelled; claims do not exercise it). -/

/-- One control-plane operation issued by the sequencer, with its
payload as passed at the call site. -/
inductive Call where
  | start_manhole (cfg : JVal)
  | start_management_transport (cfg : JVal)
  | start_router (worker_id : String) (options : JVal)
  | start_container (worker_id : String) (options : JVal)
  | start_guest (worker_id : String) (spec : Dict)
  | add_pythonpath (worker_id : String) (paths : JVal)
  | set_cpu_affinity (worker_id : String) (affinity : JVal)
  | start_worker_manhole (worker_id : String) (cfg : JVal)
  | start_router_realm (worker_id : String) (realm_id : String) (realm : Dict)
      (schemas : Option Registry)
  | start_router_realm_role (worker_id : String) (realm_id : String) (role_id : String)
      (role : Dict)
  | start_router_component (worker_id : String) (component_id : String) (component : Dict)
  | start_router_transport (worker_id : String) (transport_id : String) (transport : Dict)
  | subscribe_on_component_stop (worker_id : String)
  | start_container_component (worker_id : String) (component_id : String) (component : Dict)
  | schedule_unsubscribe (worker_id : String) (delay : Nat)

/-- Errors that abort the startup sequence. -/
inductive Err where
  | keyError (k : String)
  | logicError
  | rpcFailure (c : Call)

/-- Success oracle for issued control-plane operations. -/
abbrev RpcOk := Call → Bool

/-- File system boundary: content of a listed schema file, post
fence-extraction and parse. -/
abbrev FS := String → List (Option JVal)

/-- Issue a single fallible call: it enters the trace, and a failure
aborts with `rpcFailure`. -/
def issue1 (rpcOk : RpcOk) (c : Call) : List Call × Option Err :=
  ([c], if rpcOk c then none else some (.rpcFailure c))

/-- Python `'k' in v` on an options value: key membership for a dict
(validated configurations carry dict options). -/
def optContains (v : JVal) (k : String) : Bool :=
  match v with
  | .obj fields => dcontains fields k
  | _ => false

/-- Sequential composition: run `rest` only when the first part
succeeded, concatenating traces. -/
def seqThen (r : List Call × Option Err) (rest : Unit → List Call × Option Err) :
    List Call × Option Err :=
  match r with
  | (tr, none) => let r2 := rest (); (tr ++ r2.1, r2.2)
  | (tr, some e) => (tr, some e)

/-- The role loop of a realm (node.py lines 348-357): resolve the role
id, call `start_router_realm_role`, then read `role['name']` for the log
line (a missing `name` raises `KeyError`). -/
def startRoles (rpcOk : RpcOk) (worker_id realm_id : String) :
    Nat → List JVal → List Call × Option Err
  | _, [] => ([], none)
  | role_no, r :: rest =>
      let role := asObj r
      let res := resolveId "role" role_no role
      seqThen (issue1 rpcOk (.start_router_realm_role worker_id realm_id res.1 res.2.1))
        (fun _ =>
          match dget res.2.1 "name" with
          | none => ([], some (.keyError "name"))
          | some _ => startRoles rpcOk worker_id realm_id res.2.2 rest)

/-- Schema handling at the head of the realm loop (node.py lines
319-341): when `schemas` is present it is popped and the extractor runs
over the listed files; otherwise `None` is passed. -/
def popSchemas (fs : FS) (realm : Dict) : Option SchemaResult × Dict :=
  match dget realm "schemas" with
  | some v => (some (extractSchemas ((asArr v).map (fun f => fs (idString f)))), derase realm "schemas")
  | none => (none, realm)

/-- The realm loop of a router worker (node.py lines 307-357): resolve
the realm id, extract schemas, call `start_router_realm`, read
`realm['name']` for the log line (missing `name` raises), then run the
realm's role loop, then the remaining realms. -/
def startRealms (rpcOk : RpcOk) (fs : FS) (worker_id : String) :
    Nat → List JVal → List Call × Option Err
  | _, [] => ([], none)
  | realm_no, r :: rest =>
      let realm := asObj r
      let res := resolveId "realm" realm_no realm
      let sch := popSchemas fs res.2.1
      seqThen (issue1 rpcOk
          (.start_router_realm worker_id res.1 sch.2 ((sch.1).map SchemaResult.schemas)))
        (fun _ =>
          match dget sch.2 "name" with
          | none => ([], some (.keyError "name"))
          | some _ =>
            seqThen (startRoles rpcOk worker_id res.1 1 (asArr (dgetD sch.2 "roles" (.arr []))))
              (fun _ => startRealms rpcOk fs worker_id res.2.2 rest))

/-- The embedded-component loop of a router worker (node.py lines
361-372). -/
def startRouterComponents (rpcOk : RpcOk) (worker_id : String) :
    Nat → List JVal → List Call × Option Err
  | _, [] => ([], none)
  | component_no, c :: rest =>
      let comp := asObj c
      let res := resolveId "component" component_no comp
      seqThen (issue1 rpcOk (.start_router_component worker_id res.1 res.2.1))
        (fun _ => startRouterComponents rpcOk worker_id res.2.2 rest)

/-- The transport loop of a router worker (node.py lines 376-387),
reached by indexing `worker['transports']`. -/
def startTransports (rpcOk : RpcOk) (worker_id : String) :
    Nat → List JVal → List Call × Option Err
  | _, [] => ([], none)
  | transport_no, t :: rest =>
      let transport := asObj t
      let res := resolveId "transport" transport_no transport
      seqThen (issue1 rpcOk (.start_router_transport worker_id res.1 res.2.1))
        (fun _ => startTransports rpcOk worker_id res.2.2 rest)

/-- The component loop of a container worker (node.py lines 410-419). -/
def startContainerComponents (rpcOk : RpcOk) (worker_id : String) :
    Nat → List JVal → List Call × Option Err
  | _, [] => ([], none)
  | component_no, c :: rest =>
      let comp := asObj c
      let res := resolveId "component" component_no comp
      seqThen (issue1 rpcOk (.start_container_component worker_id res.1 res.2.1))
        (fun _ => startContainerComponents rpcOk worker_id res.2.2 rest)

/-- Generic native-worker setup shared by router and container workers
(node.py lines 286-299): `add_pythonpath` and `set_cpu_affinity` when
present in the worker's options, `start_manhole` when present in the
worker spec. -/
def genericWorkerSetup (rpcOk : RpcOk) (worker_id : String) (worker : Dict)
    (worker_options : JVal) : List Call × Option Err :=
  seqThen
    (if optContains worker_options "pythonpath" then
      issue1 rpcOk (.add_pythonpath worker_id (dgetD (asObj worker_options) "pythonpath" .null))
    else ([], none))
    (fun _ =>
      seqThen
        (if optContains worker_options "cpu_affinity" then
          issue1 rpcOk (.set_cpu_affinity worker_id (dgetD (asObj worker_options) "cpu_affinity" .null))
        else ([], none))
        (fun _ =>
          match dget worker "manhole" with
          | some v => issue1 rpcOk (.start_worker_manhole worker_id v)
          | none => ([], none)))

/-- One iteration of the worker loop after id resolution (node.py lines
254-435): read `worker['type']` (missing raises `KeyError`), compute the
log name — an unrecognized type raises at that point, before any start
call for the worker — then dispatch the type-specific spawn call and
sub-resource startup. -/
def processWorker (rpcOk : RpcOk) (fs : FS) (worker_id : String) (worker : Dict) :
    List Call × Option Err :=
  match dget worker "type" with
  | none => ([], some (.keyError "type"))
  | some t =>
    let worker_options := dgetD worker "options" (.obj [])
    match t with
    | .str s =>
      if s = "router" then
        seqThen (issue1 rpcOk (.start_router worker_id worker_options))
          (fun _ =>
            seqThen (genericWorkerSetup rpcOk worker_id worker worker_options)
              (fun _ =>
                seqThen (startRealms rpcOk fs worker_id 1 (asArr (dgetD worker "realms" (.arr []))))
                  (fun _ =>
                    seqThen (startRouterComponents rpcOk worker_id 1
                        (asArr (dgetD worker "components" (.arr []))))
                      (fun _ =>
                        match dget worker "transports" with
                        | none => ([], some (.keyError "transports"))
                        | some tv => startTransports rpcOk worker_id 1 (asArr tv)))))
      else if s = "container" then
        seqThen (issue1 rpcOk (.start_container worker_id worker_options))
          (fun _ =>
            seqThen (genericWorkerSetup rpcOk worker_id worker worker_options)
              (fun _ =>
                seqThen (issue1 rpcOk (.subscribe_on_component_stop worker_id))
                  (fun _ =>
                    seqThen (startContainerComponents rpcOk worker_id 1
                        (asArr (dgetD worker "components" (.arr []))))
                      (fun _ => ([.schedule_unsubscribe worker_id 2], none)))))
      else if s = "guest" then
        issue1 rpcOk (.start_guest worker_id worker)
      else ([], some .logicError)
    | _ => ([], some .logicError)

/-- The worker loop (node.py lines 241-435): resolve each worker's id in
declaration order and process it; an error stops the loop. -/
def startWorkers (rpcOk : RpcOk) (fs : FS) :
    Nat → List JVal → List Call × Option Err
  | _, [] => ([], none)
  | worker_no, w :: rest =>
      let res := resolveId "worker" worker_no (asObj w)
      seqThen (processWorker rpcOk fs res.1 res.2.1)
        (fun _ => startWorkers rpcOk fs res.2.2 rest)

/-- `_startup_standalone` (node.py lines 216-435): controller manhole
and management transport when configured, then the worker loop. -/
def startupStandalone (rpcOk : RpcOk) (fs : FS) (config : Dict) :
    List Call × Option Err :=
  let controller := asObj (dgetD config "controller" (.obj []))
  seqThen
    (match dget controller "manhole" with
      | some v => issue1 rpcOk (.start_manhole v)
      | none => ([], none))
    (fun _ =>
      seqThen
        (match dget controller "transport" with
          | some v => issue1 rpcOk (.start_management_transport v)
          | none => ([], none))
        (fun _ => startWorkers rpcOk fs 1 (asArr (dgetD config "workers" (.arr [])))))

/-! ### Node identity and the top-level failure handler -/

/-- Node identity resolution (node.py lines 127-134): `manager.id` when a
`manager` section is present (`['id']` on it raises when absent), else
`controller.id` when present, else the local host name. -/
def resolveNodeId (config : Dict) (hostname : String) : Except Err String :=
  if dcontains config "manager" then
    match dget (asObj (dgetD config "manager" .null)) "id" with
    | some v => .ok (idString v)
    | none => .error (.keyError "id")
  else
    match dget (asObj (dgetD config "controller" (.obj []))) "id" with
    | some v => .ok (idString v)
    | none => .ok hostname

/-- The process-wide reactor: whether the event loop is running. -/
structure Reactor where
  running : Bool

/-- `reactor.stop()`: raises `ReactorNotRunning` when already stopped. -/
def reactorStop (r : Reactor) : Except Unit Reactor :=
  if r.running then .ok { running := false } else .error ()

/-- The `except` handler at node.py lines 200-205: request the reactor to
stop, absorbing `ReactorNotRunning` with `pass`. -/
def handleStartupFailure (r : Reactor) : Reactor :=
  match reactorStop r with
  | .ok r' => r'
  | .error _ => r

/-- The `try`/`except` around the standalone startup in `start()`
(node.py lines 195-205): on any failure, keep the trace as issued (no
rollback calls), and request the event loop to stop. -/
def runStandalone (rpcOk : RpcOk) (fs : FS) (config : Dict) (r : Reactor) :
    List Call × Option Err × Reactor :=
  let res := startupStandalone rpcOk fs config
  match res.2 with
  | some e => (res.1, some e, handleStartupFailure r)
  | none => (res.1, none, r)

/-! ### The container-component watchdog

Timed model of node.py lines 391-422: the `component_exited` handler is
subscribed before the component loop and its removal is scheduled with
`callLater(2, unsubscribe)` after the loop. The reactor delivers timed
occurrences in time order; each occurrence is either the stop event for
a component (delivered to the handler only while the subscription is
active) or the firing of the unsubscribe timer. -/

/-- Watchdog-relevant state: whether the stop subscription is active,
whether the reactor is running, and how many times `reactor.stop()` was
performed by the handler. -/
structure WatchdogState where
  subscribed : Bool
  running : Bool
  stopCount : Nat

/-- A timed occurrence seen by the watchdog. -/
inductive WdEvent where
  | componentStop (comp : String)
  | unsubTimer

/-- One occurrence: the handler (node.py lines 402-406) logs the failing
component and stops the reactor if it is running; it only runs while
subscribed. The timer firing removes the subscription. -/
def wdStep (st : WatchdogState) : WdEvent → WatchdogState
  | .componentStop _ =>
      if st.subscribed then
        if st.running then
          { st with running := false, stopCount := st.stopCount + 1 }
        else st
      else st
  | .unsubTimer => { st with subscribed := false }

/-- Stable insertion of a timed occurrence into a time-sorted list. -/
def insertByTime (e : Nat × WdEvent) : List (Nat × WdEvent) → List (Nat × WdEvent)
  | [] => [e]
  | e' :: rest => if e.1 < e'.1 then e :: e' :: rest else e' :: insertByTime e rest

/-- Deliver timed occurrences in time order. -/
def wdRun (st : WatchdogState) (evs : List (Nat × WdEvent)) : WatchdogState :=
  (evs.foldr insertByTime []).foldl (fun s te => wdStep s te.2) st

/-- The state in which the watchdog is armed: subscription active,
reactor running, no stop performed yet. -/
def wdArmed : WatchdogState :=
  { subscribed := true, running := true, stopCount := 0 }

/-! ### Phase-level views of the sequencer

Closed forms of the call sequences the loops produce when every call
succeeds, used to state refinement theorems about sub-phase ordering.
They follow the (amended) spec wording for §4.3/§4.4: each realm's role
calls follow that realm's start call; components and transports form
trailing sub-phases. -/

/-- The oracle under which every issued call succeeds. -/
def alwaysOk : RpcOk := fun _ => true

/-- Role calls of one realm, in declaration order. -/
def rolesCalls (worker_id realm_id : String) : Nat → List JVal → List Call
  | _, [] => []
  | role_no, r :: rest =>
      let res := resolveId "role" role_no (asObj r)
      .start_router_realm_role worker_id realm_id res.1 res.2.1
        :: rolesCalls worker_id realm_id res.2.2 rest

/-- Realm-phase calls: for each realm in order, its `start_router_realm`
call followed immediately by its role calls. -/
def realmsCalls (fs : FS) (worker_id : String) : Nat → List JVal → List Call
  | _, [] => []
  | realm_no, r :: rest =>
      let res := resolveId "realm" realm_no (asObj r)
      let sch := popSchemas fs res.2.1
      .start_router_realm worker_id res.1 sch.2 ((sch.1).map SchemaResult.schemas)
        :: (rolesCalls worker_id res.1 1 (asArr (dgetD sch.2 "roles" (.arr [])))
            ++ realmsCalls fs worker_id res.2.2 rest)

/-- Embedded-component-phase calls of a router worker. -/
def routerComponentsCalls (worker_id : String) : Nat → List JVal → List Call
  | _, [] => []
  | component_no, c :: rest =>
      let res := resolveId "component" component_no (asObj c)
      .start_router_component worker_id res.1 res.2.1
        :: routerComponentsCalls worker_id res.2.2 rest

/-- Transport-phase calls of a router worker. -/
def transportsCalls (worker_id : String) : Nat → List JVal → List Call
  | _, [] => []
  | transport_no, t :: rest =>
      let res := resolveId "transport" transport_no (asObj t)
      .start_router_transport worker_id res.1 res.2.1
        :: transportsCalls worker_id res.2.2 rest

/-- Component calls of a container worker. -/
def containerComponentsCalls (worker_id : String) : Nat → List JVal → List Call
  | _, [] => []
  | component_no, c :: rest =>
      let res := resolveId "component" component_no (asObj c)
      .start_container_component worker_id res.1 res.2.1
        :: containerComponentsCalls worker_id res.2.2 rest

/-- Generic native-worker setup calls, closed form. -/
def genericCalls (worker_id : String) (worker : Dict) (worker_options : JVal) : List Call :=
  (if optContains worker_options "pythonpath" then
    [.add_pythonpath worker_id (dgetD (asObj worker_options) "pythonpath" .null)]
  else []) ++
  (if optContains worker_options "cpu_affinity" then
    [.set_cpu_affinity worker_id (dgetD (asObj worker_options) "cpu_affinity" .null)]
  else []) ++
  (match dget worker "manhole" with
   | some v => [.start_worker_manhole worker_id v]
   | none => [])

/-- Call discriminators, used to state ordering properties. -/
def isRealmCall : Call → Bool
  | .start_router_realm _ _ _ _ => true
  | _ => false

def isRoleCall : Call → Bool
  | .start_router_realm_role _ _ _ _ => true
  | _ => false

def isRouterComponentCall : Call → Bool
  | .start_router_component _ _ _ => true
  | _ => false

def isTransportCall : Call → Bool
  | .start_router_transport _ _ _ => true
  | _ => false

def isContainerComponentCall : Call → Bool
  | .start_container_component _ _ _ => true
  | _ => false

def isSubscribeCall : Call → Bool
  | .subscribe_on_component_stop _ => true
  | _ => false

def isScheduleUnsubscribeCall : Call → Bool
  | .schedule_unsubscribe _ _ => true
  | _ => false

/-- The spawn-call worker id of a call, when it is a spawn call. -/
def spawnId : Call → Option String
  | .start_router i _ => some i
  | .start_container i _ => some i
  | .start_guest i _ => some i
  | _ => none

/-- Well-formedness of a role spec needed by the logging at node.py line
357: `role['name']` must exist. -/
def roleWF (r : JVal) : Bool :=
  dcontains (asObj r) "name"

/-- Well-formedness of a realm spec needed by the logging at node.py
lines 344 and 357: the realm and each of its roles carry a `name`. -/
def realmWF (r : JVal) : Bool :=
  dcontains (asObj r) "name"
    && (asArr (dgetD (asObj r) "roles" (.arr []))).all roleWF

/-- The realm list of a worker spec, as read at node.py line 309. -/
def workerRealms (worker : Dict) : List JVal :=
  asArr (dgetD worker "realms" (.arr []))

/-- The embedded-component list of a worker spec (node.py line 363). -/
def workerComponents (worker : Dict) : List JVal :=
  asArr (dgetD worker "components" (.arr []))

/-- The roles list that the realm phase reads for one realm. -/
def realmRoles (r : JVal) : List JVal :=
  asArr (dgetD (asObj r) "roles" (.arr []))

/-- The fields of a block when it is an accepted declaration for string
uri `u`, and `none` otherwise; written to follow the acceptance test of
`processDecl`. -/
def declFieldsFor (u : String) (b : Option JVal) : Option Dict :=
  match b with
  | some (.obj fields) =>
      match dget fields "$schema" with
      | some (.str marker) =>
        if marker = wampSchemaMarker then
          match dget fields "uri" with
          | some (.str s) => if s = u then some fields else none
          | _ => none
        else none
      | _ => none
  | _ => none

/-- Accepted declaration fields for uri `u`, in processing order. -/
def acceptedDecls (u : String) (blocks : List (Option JVal)) : List Dict :=
  blocks.filterMap (declFieldsFor u)

/-- Shallow merge of a declaration list into an optional registry slot
(absent slots start from the empty object). -/
def mergedInto (acc : Option Dict) (ds : List Dict) : Option Dict :=
  ds.foldl (fun a d => some (dupdate (a.getD []) d)) acc

/-- Whether a block produces a warning: a failed parse, or a mapping with
the marker whose `uri` is missing or unhashable. -/
def blockWarns (b : Option JVal) : Bool :=
  match b with
  | none => true
  | some (.obj fields) =>
      match dget fields "$schema" with
      | some (.str marker) =>
        if marker = wampSchemaMarker then
          match dget fields "uri" with
          | some uri => !jhashable uri
          | none => true
        else false
      | _ => false
  | some _ => false

/-- Whether a block is an accepted declaration (counted by `cnt_decls`). -/
def blockAccepted (b : Option JVal) : Bool :=
  match b with
  | some (.obj fields) =>
      match dget fields "$schema" with
      | some (.str marker) =>
        if marker = wampSchemaMarker then
          match dget fields "uri" with
          | some uri => jhashable uri
          | none => false
        else false
      | _ => false
  | _ => false

/-- A sequencer result in which a failed RPC, when that is the abort
reason, is the last call issued (no call follows a failure). -/
def failsLast (r : List Call × Option Err) : Prop :=
  ∀ c, r.2 = some (.rpcFailure c) → r.1.getLast? = some c

/-- File system with no schema files. -/
def emptyFS : FS := fun _ => []

/-- Oracle under which every issued call fails. -/
def neverOk : RpcOk := fun _ => false

/-- The worker list of the spec example: an unnamed router, an explicitly
named container, an unnamed guest. -/
def exampleWorkers : List JVal :=
  [.obj [("type", .str "router"), ("transports", .arr [])],
   .obj [("id", .str "custom"), ("type", .str "container")],
   .obj [("type", .str "guest")]]

/-- A router worker with two realms, each carrying one role, and an empty
transport list. -/
def exampleRouterWorker : Dict :=
  [("type", .str "router"),
   ("realms", .arr
      [.obj [("name", .str "realm_a"),
             ("roles", .arr [.obj [("name", .str "anonymous")]])],
       .obj [("name", .str "realm_b"),
             ("roles", .arr [.obj [("name", .str "anonymous")]])]]),
   ("transports", .arr [])]

/-- The trace the sequencer issues for `exampleRouterWorker`. -/
def exampleRouterTrace : List Call :=
  (processWorker alwaysOk emptyFS "w" exampleRouterWorker).1

/-- Declaration block A of the spec example: `{uri: "x", a: 1}`. -/
def declBlockA : Option JVal :=
  some (.obj [("$schema", .str wampSchemaMarker), ("uri", .str "x"), ("a", .num 1)])

/-- Declaration block B of the spec example: `{uri: "x", a: 2, b: 3}`. -/
def declBlockB : Option JVal :=
  some (.obj [("$schema", .str wampSchemaMarker), ("uri", .str "x"),
              ("a", .num 2), ("b", .num 3)])

/-- A parsed mapping carrying the dialect marker but no `uri` field. -/
def declBlockNoUri : Option JVal :=
  some (.obj [("$schema", .str wampSchemaMarker)])

/-- A configuration with a single unnamed guest worker. -/
def exampleGuestConfig : Dict :=
  [("workers", .arr [.obj [("type", .str "guest")]])]

/-- A router worker with one realm (one role), one embedded component and
no `transports` key. -/
def exampleRouterNoTransports : Dict :=
  [("type", .str "router"),
   ("realms", .arr
      [.obj [("name", .str "realm_a"),
             ("roles", .arr [.obj [("name", .str "anonymous")]])]]),
   ("components", .arr [.obj [("kind", .str "class")]])]

/-! ### Basic lemmas about the dictionary model -/

theorem dget_derase_ne (d : Dict) (k k' : String) (h : k' ≠ k) :
    dget (derase d k) k' = dget d k' := by
  induction d with
  | nil => rfl
  | cons kv rest ih =>
      by_cases hk : kv.1 = k
      · simp only [derase, if_pos hk, dget, ih]
        rw [if_neg]
        exact fun hkk => h (hkk ▸ hk)
      · simp only [derase, if_neg hk, dget, ih]

theorem dget_resolveId_ne (kind : String) (no : Nat) (spec : Dict) (k : String)
    (h : k ≠ "id") :
    dget (resolveId kind no spec).2.1 k = dget spec k := by
  unfold resolveId
  cases hid : dget spec "id" with
  | none => rfl
  | some v => exact dget_derase_ne spec "id" k h

theorem dget_derase_self (d : Dict) (k : String) :
    dget (derase d k) k = none := by
  induction d with
  | nil => rfl
  | cons kv rest ih =>
      by_cases hk : kv.1 = k
      · simp only [derase, if_pos hk, ih]
      · simp only [derase, if_neg hk, dget, if_neg hk, ih]

theorem dget_resolveId_id (kind : String) (no : Nat) (spec : Dict) :
    dget (resolveId kind no spec).2.1 "id" = none := by
  unfold resolveId
  cases hid : dget spec "id" with
  | none => exact hid
  | some v => exact dget_derase_self spec "id"

theorem seqThen_none (tr : List Call) (f : Unit → List Call × Option Err) :
    seqThen (tr, none) f = (tr ++ (f ()).1, (f ()).2) := rfl

theorem seqThen_some (tr : List Call) (e : Err) (f : Unit → List Call × Option Err) :
    seqThen (tr, some e) f = (tr, some e) := rfl

theorem issue1_alwaysOk (c : Call) : issue1 alwaysOk c = ([c], none) := rfl

theorem dget_popSchemas_ne (fs : FS) (d : Dict) (k : String) (h : k ≠ "schemas") :
    dget (popSchemas fs d).2 k = dget d k := by
  unfold popSchemas
  cases hs : dget d "schemas" with
  | none => rfl
  | some v => exact dget_derase_ne d "schemas" k h

/-! ### Closed forms of the loops when every call succeeds -/

theorem startRoles_eq (w R : String) (roles : List JVal) (n : Nat)
    (h : roles.all roleWF = true) :
    startRoles alwaysOk w R n roles = (rolesCalls w R n roles, none) := by
  induction roles generalizing n with
  | nil => rfl
  | cons r rest ih =>
      simp only [List.all_cons, Bool.and_eq_true] at h
      obtain ⟨h1, h2⟩ := h
      simp only [roleWF, dcontains] at h1
      obtain ⟨v, hv⟩ := Option.isSome_iff_exists.mp h1
      have hv' : dget (resolveId "role" n (asObj r)).2.1 "name" = some v := by
        rw [dget_resolveId_ne _ _ _ _ (by decide)]; exact hv
      rw [startRoles, rolesCalls]
      simp [seqThen, issue1, alwaysOk, hv', ih _ h2]

theorem startRealms_eq (fs : FS) (w : String) (realms : List JVal) (n : Nat)
    (h : realms.all realmWF = true) :
    startRealms alwaysOk fs w n realms = (realmsCalls fs w n realms, none) := by
  induction realms generalizing n with
  | nil => rfl
  | cons r rest ih =>
      simp only [List.all_cons, realmWF, Bool.and_eq_true] at h
      obtain ⟨⟨h1, h2⟩, hrest⟩ := h
      simp only [dcontains] at h1
      obtain ⟨v, hv⟩ := Option.isSome_iff_exists.mp h1
      have hv' : dget (popSchemas fs (resolveId "realm" n (asObj r)).2.1).2 "name" = some v := by
        rw [dget_popSchemas_ne _ _ _ (by decide), dget_resolveId_ne _ _ _ _ (by decide)]
        exact hv
      have hroles : dgetD (popSchemas fs (resolveId "realm" n (asObj r)).2.1).2 "roles" (.arr [])
          = dgetD (asObj r) "roles" (.arr []) := by
        unfold dgetD
        rw [dget_popSchemas_ne _ _ _ (by decide), dget_resolveId_ne _ _ _ _ (by decide)]
      rw [startRealms, realmsCalls]
      simp [seqThen, issue1, alwaysOk, hv', hroles, startRoles_eq _ _ _ _ h2, ih _ hrest]

theorem startRouterComponents_eq (w : String) (cs : List JVal) (n : Nat) :
    startRouterComponents alwaysOk w n cs = (routerComponentsCalls w n cs, none) := by
  induction cs generalizing n with
  | nil => rfl
  | cons c rest ih =>
      rw [startRouterComponents, routerComponentsCalls]
      simp [seqThen, issue1, alwaysOk, ih]

theorem startTransports_eq (w : String) (ts : List JVal) (n : Nat) :
    startTransports alwaysOk w n ts = (transportsCalls w n ts, none) := by
  induction ts generalizing n with
  | nil => rfl
  | cons t rest ih =>
      rw [startTransports, transportsCalls]
      simp [seqThen, issue1, alwaysOk, ih]

theorem startContainerComponents_eq (w : String) (cs : List JVal) (n : Nat) :
    startContainerComponents alwaysOk w n cs = (containerComponentsCalls w n cs, none) := by
  induction cs generalizing n with
  | nil => rfl
  | cons c rest ih =>
      rw [startContainerComponents, containerComponentsCalls]
      simp [seqThen, issue1, alwaysOk, ih]

theorem genericWorkerSetup_eq (w : String) (worker : Dict) (opts : JVal) :
    genericWorkerSetup alwaysOk w worker opts = (genericCalls w worker opts, none) := by
  unfold genericWorkerSetup genericCalls
  by_cases hp : optContains opts "pythonpath" <;>
    by_cases hc : optContains opts "cpu_affinity" <;>
      cases hm : dget worker "manhole" <;>
        simp [hp, hc, hm, seqThen, issue1, alwaysOk]

/-- Closed form of a router worker's processing when every call succeeds
and `transports` is present. -/
theorem processWorker_router_eq (fs : FS) (w : String) (worker : Dict) (tv : JVal)
    (ht : dget worker "type" = some (.str "router"))
    (hr : (workerRealms worker).all realmWF = true)
    (htv : dget worker "transports" = some tv) :
    processWorker alwaysOk fs w worker =
      (.start_router w (dgetD worker "options" (.obj []))
         :: (genericCalls w worker (dgetD worker "options" (.obj []))
             ++ realmsCalls fs w 1 (workerRealms worker)
             ++ routerComponentsCalls w 1 (workerComponents worker)
             ++ transportsCalls w 1 (asArr tv)), none) := by
  unfold processWorker
  rw [ht]
  simp only [workerRealms, workerComponents] at *
  simp [seqThen, issue1, alwaysOk, genericWorkerSetup_eq, htv,
        startRealms_eq _ _ _ _ hr, startRouterComponents_eq, startTransports_eq]

/-- Closed form of a router worker's processing when every call succeeds
and `transports` is missing: the `KeyError` aborts after realms, roles
and components have been started. -/
theorem processWorker_router_noTransports (fs : FS) (w : String) (worker : Dict)
    (ht : dget worker "type" = some (.str "router"))
    (hr : (workerRealms worker).all realmWF = true)
    (htv : dget worker "transports" = none) :
    processWorker alwaysOk fs w worker =
      (.start_router w (dgetD worker "options" (.obj []))
         :: (genericCalls w worker (dgetD worker "options" (.obj []))
             ++ realmsCalls fs w 1 (workerRealms worker)
             ++ routerComponentsCalls w 1 (workerComponents worker)),
       some (.keyError "transports")) := by
  unfold processWorker
  rw [ht]
  simp only [workerRealms, workerComponents] at *
  simp [seqThen, issue1, alwaysOk, genericWorkerSetup_eq, htv,
        startRealms_eq _ _ _ _ hr, startRouterComponents_eq]

/-- Closed form of a container worker's processing when every call
succeeds: subscription, component starts, then the scheduled
unsubscription. -/
theorem processWorker_container_eq (fs : FS) (w : String) (worker : Dict)
    (ht : dget worker "type" = some (.str "container")) :
    processWorker alwaysOk fs w worker =
      (.start_container w (dgetD worker "options" (.obj []))
         :: (genericCalls w worker (dgetD worker "options" (.obj []))
             ++ [.subscribe_on_component_stop w]
             ++ containerComponentsCalls w 1 (workerComponents worker)
             ++ [.schedule_unsubscribe w 2]), none) := by
  unfold processWorker
  rw [ht]
  simp only [workerComponents] at *
  simp [seqThen, issue1, alwaysOk, genericWorkerSetup_eq, startContainerComponents_eq]

/-- A guest worker's processing is the single `start_guest` call with the
whole remaining spec, for any oracle. -/
theorem processWorker_guest_eq (rpcOk : RpcOk) (fs : FS) (w : String) (worker : Dict)
    (ht : dget worker "type" = some (.str "guest")) :
    processWorker rpcOk fs w worker = issue1 rpcOk (.start_guest w worker) := by
  unfold processWorker
  rw [ht]
  simp

/-- An unrecognized worker type aborts before any call is issued for the
worker. -/
theorem processWorker_unknown (rpcOk : RpcOk) (fs : FS) (w : String) (worker : Dict)
    (s : String)
    (ht : dget worker "type" = some (.str s))
    (hs : s ≠ "router") (hs2 : s ≠ "container") (hs3 : s ≠ "guest") :
    processWorker rpcOk fs w worker = ([], some .logicError) := by
  unfold processWorker
  rw [ht]
  simp [hs, hs2, hs3]

/-! ### Shape and counting lemmas for the phase call lists -/

theorem mem_rolesCalls {w R : String} {n : Nat} {roles : List JVal} {c : Call}
    (h : c ∈ rolesCalls w R n roles) :
    ∃ rid rd, c = .start_router_realm_role w R rid rd := by
  induction roles generalizing n with
  | nil => exact absurd h (List.not_mem_nil c)
  | cons r rest ih =>
      rw [rolesCalls] at h
      rcases List.mem_cons.mp h with hc | hc
      · exact ⟨_, _, hc⟩
      · exact ih hc

theorem mem_realmsCalls {fs : FS} {w : String} {n : Nat} {realms : List JVal} {c : Call}
    (h : c ∈ realmsCalls fs w n realms) :
    (∃ rid rd sch, c = .start_router_realm w rid rd sch)
      ∨ (∃ R rid rd, c = .start_router_realm_role w R rid rd) := by
  induction realms generalizing n with
  | nil => exact absurd h (List.not_mem_nil c)
  | cons r rest ih =>
      rw [realmsCalls] at h
      rcases List.mem_cons.mp h with hc | hc
      · exact Or.inl ⟨_, _, _, hc⟩
      · rcases List.mem_append.mp hc with hc2 | hc2
        · obtain ⟨rid, rd, hcr⟩ := mem_rolesCalls hc2
          exact Or.inr ⟨_, _, _, hcr⟩
        · exact ih hc2

theorem mem_routerComponentsCalls {w : String} {n : Nat} {cs : List JVal} {c : Call}
    (h : c ∈ routerComponentsCalls w n cs) :
    ∃ cid cd, c = .start_router_component w cid cd := by
  induction cs generalizing n with
  | nil => exact absurd h (List.not_mem_nil c)
  | cons x rest ih =>
      rw [routerComponentsCalls] at h
      rcases List.mem_cons.mp h with hc | hc
      · exact ⟨_, _, hc⟩
      · exact ih hc

theorem mem_transportsCalls {w : String} {n : Nat} {ts : List JVal} {c : Call}
    (h : c ∈ transportsCalls w n ts) :
    ∃ tid td, c = .start_router_transport w tid td := by
  induction ts generalizing n with
  | nil => exact absurd h (List.not_mem_nil c)
  | cons x rest ih =>
      rw [transportsCalls] at h
      rcases List.mem_cons.mp h with hc | hc
      · exact ⟨_, _, hc⟩
      · exact ih hc

theorem mem_containerComponentsCalls {w : String} {n : Nat} {cs : List JVal} {c : Call}
    (h : c ∈ containerComponentsCalls w n cs) :
    ∃ cid cd, c = .start_container_component w cid cd := by
  induction cs generalizing n with
  | nil => exact absurd h (List.not_mem_nil c)
  | cons x rest ih =>
      rw [containerComponentsCalls] at h
      rcases List.mem_cons.mp h with hc | hc
      · exact ⟨_, _, hc⟩
      · exact ih hc

theorem mem_genericCalls {w : String} {worker : Dict} {opts : JVal} {c : Call}
    (h : c ∈ genericCalls w worker opts) :
    (∃ v, c = .add_pythonpath w v) ∨ (∃ v, c = .set_cpu_affinity w v) ∨
      (∃ v, c = .start_worker_manhole w v) := by
  unfold genericCalls at h
  rcases List.mem_append.mp h with h1 | h1
  · rcases List.mem_append.mp h1 with h2 | h2
    · by_cases hp : optContains opts "pythonpath"
      · rw [if_pos hp] at h2
        rcases List.mem_cons.mp h2 with hc | hc
        · exact Or.inl ⟨_, hc⟩
        · exact absurd hc (List.not_mem_nil c)
      · rw [if_neg hp] at h2
        exact absurd h2 (List.not_mem_nil c)
    · by_cases hp : optContains opts "cpu_affinity"
      · rw [if_pos hp] at h2
        rcases List.mem_cons.mp h2 with hc | hc
        · exact Or.inr (Or.inl ⟨_, hc⟩)
        · exact absurd hc (List.not_mem_nil c)
      · rw [if_neg hp] at h2
        exact absurd h2 (List.not_mem_nil c)
  · cases hm : dget worker "manhole" with
    | none => rw [hm] at h1; exact absurd h1 (List.not_mem_nil c)
    | some v =>
        rw [hm] at h1
        rcases List.mem_cons.mp h1 with hc | hc
        · exact Or.inr (Or.inr ⟨_, hc⟩)
        · exact absurd hc (List.not_mem_nil c)

theorem countP_rolesCalls_role (w R : String) (n : Nat) (roles : List JVal) :
    (rolesCalls w R n roles).countP isRoleCall = roles.length := by
  induction roles generalizing n with
  | nil => rfl
  | cons r rest ih =>
      rw [rolesCalls]
      simp [List.countP_cons, isRoleCall, ih]

theorem countP_rolesCalls_realm (w R : String) (n : Nat) (roles : List JVal) :
    (rolesCalls w R n roles).countP isRealmCall = 0 := by
  induction roles generalizing n with
  | nil => rfl
  | cons r rest ih =>
      rw [rolesCalls]
      simp [List.countP_cons, isRealmCall, ih]

theorem realmsCalls_roles_list (fs : FS) (n : Nat) (r : JVal) :
    asArr (dgetD (popSchemas fs (resolveId "realm" n (asObj r)).2.1).2 "roles" (.arr []))
      = realmRoles r := by
  unfold realmRoles dgetD
  rw [dget_popSchemas_ne _ _ _ (by decide), dget_resolveId_ne _ _ _ _ (by decide)]

theorem countP_realmsCalls_realm (fs : FS) (w : String) (n : Nat) (realms : List JVal) :
    (realmsCalls fs w n realms).countP isRealmCall = realms.length := by
  induction realms generalizing n with
  | nil => rfl
  | cons r rest ih =>
      rw [realmsCalls]
      simp [List.countP_cons, List.countP_append, isRealmCall,
            countP_rolesCalls_realm, ih]

theorem countP_realmsCalls_role (fs : FS) (w : String) (n : Nat) (realms : List JVal) :
    (realmsCalls fs w n realms).countP isRoleCall
      = (realms.map (fun r => (realmRoles r).length)).sum := by
  induction realms generalizing n with
  | nil => rfl
  | cons r rest ih =>
      rw [realmsCalls]
      simp [List.countP_cons, List.countP_append, isRoleCall,
            countP_rolesCalls_role, realmsCalls_roles_list, ih]

theorem countP_routerComponentsCalls (w : String) (n : Nat) (cs : List JVal) :
    (routerComponentsCalls w n cs).countP isRouterComponentCall = cs.length := by
  induction cs generalizing n with
  | nil => rfl
  | cons c rest ih =>
      rw [routerComponentsCalls]
      simp [List.countP_cons, isRouterComponentCall, ih]

theorem countP_containerComponentsCalls (w : String) (n : Nat) (cs : List JVal) :
    (containerComponentsCalls w n cs).countP isContainerComponentCall = cs.length := by
  induction cs generalizing n with
  | nil => rfl
  | cons c rest ih =>
      rw [containerComponentsCalls]
      simp [List.countP_cons, isContainerComponentCall, ih]

/-- Counting a predicate that is false on every element of a list. -/
theorem countP_eq_zero_of_mem {l : List Call} {p : Call → Bool}
    (h : ∀ c ∈ l, p c = false) : l.countP p = 0 := by
  rw [List.countP_eq_zero]
  intro a ha
  simp [h a ha]

/-- Index separation in a concatenation: an element satisfying `p` comes
before every element satisfying `q` when the left part has no `q` and
the right part has no `p`. -/
theorem index_separation {α : Type} (A B : List α) (p q : α → Bool)
    (hA : ∀ c ∈ A, q c = false) (hB : ∀ c ∈ B, p c = false)
    (i j : Nat) (hi : i < (A ++ B).length) (hj : j < (A ++ B).length)
    (hp : p ((A ++ B).get ⟨i, hi⟩) = true) (hq : q ((A ++ B).get ⟨j, hj⟩) = true) :
    i < j := by
  have hlen : (A ++ B).length = A.length + B.length := List.length_append A B
  have hiA : i < A.length := by
    by_contra hle
    push_neg at hle
    have hiB : i - A.length < B.length := by omega
    have hget : (A ++ B).get ⟨i, hi⟩ = B.get ⟨i - A.length, hiB⟩ := by
      simp [List.get_eq_getElem, List.getElem_append_right hle]
    rw [hget] at hp
    have hfalse := hB (B.get ⟨i - A.length, hiB⟩) (List.get_mem B (i - A.length) hiB)
    rw [hp] at hfalse
    exact Bool.noConfusion hfalse
  have hjA : A.length ≤ j := by
    by_contra hlt
    push_neg at hlt
    have hget : (A ++ B).get ⟨j, hj⟩ = A.get ⟨j, hlt⟩ := by
      simp [List.get_eq_getElem, List.getElem_append_left hlt]
    rw [hget] at hq
    have hfalse := hA (A.get ⟨j, hlt⟩) (List.get_mem A j hlt)
    rw [hq] at hfalse
    exact Bool.noConfusion hfalse
  omega

/-! ### Characterization of the schema extraction -/

theorem jeqKey_eq {a b : JVal} (h : jeqKey a b = true) : a = b := by
  cases a <;> cases b <;> simp_all [jeqKey]

theorem rget_rset_hit (r : Registry) (k : JVal) (v : Dict) (u : JVal)
    (h : jeqKey k u = true) : rget (rset r k v) u = some v := by
  have hk : k = u := jeqKey_eq h
  subst hk
  induction r with
  | nil => simp [rset, rget, h]
  | cons kv rest ih =>
      by_cases h0 : jeqKey kv.1 k
      · simp [rset, h0, rget, h]
      · simp [rset, h0, rget, ih]

theorem rget_rset_miss (r : Registry) (k : JVal) (v : Dict) (u : JVal)
    (h : jeqKey k u = false) : rget (rset r k v) u = rget r u := by
  induction r with
  | nil => simp [rset, rget, h]
  | cons kv rest ih =>
      obtain ⟨k0, v0⟩ := kv
      by_cases h0 : jeqKey k0 k
      · have hk : k0 = k := jeqKey_eq h0
        subst hk
        simp [rset, h0, rget, h]
      · by_cases h1 : jeqKey k0 u
        · simp [rset, h0, rget, h1]
        · simp [rset, h0, rget, h1, ih]

theorem mergedInto_append (acc : Option Dict) (xs ys : List Dict) :
    mergedInto acc (xs ++ ys) = mergedInto (mergedInto acc xs) ys := by
  unfold mergedInto
  exact List.foldl_append _ _ xs ys

theorem rget_processDecl (st : SchemaResult) (b : Option JVal) (u : String) :
    rget (processDecl st b).schemas (.str u)
      = match declFieldsFor u b with
        | some f => some (dupdate (rgetD st.schemas (.str u) []) f)
        | none => rget st.schemas (.str u) := by
  cases b with
  | none => rfl
  | some o =>
    cases o with
    | obj fields =>
        rw [processDecl, declFieldsFor]
        cases hs : dget fields "$schema" with
        | none => rfl
        | some m =>
          cases m with
          | str marker =>
              by_cases hm : marker = wampSchemaMarker
              · cases hu : dget fields "uri" with
                | none => simp [hm]
                | some uri =>
                  cases uri with
                  | str s =>
                      by_cases hsu : s = u
                      · subst hsu
                        have hkey : jeqKey (JVal.str s) (JVal.str s) = true := by
                          simp [jeqKey]
                        simp [hm, jhashable, rget_rset_hit st.schemas _ _ _ hkey, rgetD]
                      · have hkey : jeqKey (JVal.str s) (JVal.str u) = false := by
                          simp [jeqKey, hsu]
                        simp [hm, jhashable, rget_rset_miss st.schemas _ _ _ hkey, hsu]
                  | null =>
                      have hkey : jeqKey JVal.null (JVal.str u) = false := rfl
                      simp [hm, jhashable, rget_rset_miss st.schemas _ _ _ hkey]
                  | bool bv =>
                      have hkey : jeqKey (JVal.bool bv) (JVal.str u) = false := rfl
                      simp [hm, jhashable, rget_rset_miss st.schemas _ _ _ hkey]
                  | num nv =>
                      have hkey : jeqKey (JVal.num nv) (JVal.str u) = false := rfl
                      simp [hm, jhashable, rget_rset_miss st.schemas _ _ _ hkey]
                  | arr xs => simp [hm, jhashable]
                  | obj fs2 => simp [hm, jhashable]
              · simp [hm]
          | null => rfl
          | bool bv => rfl
          | num nv => rfl
          | arr xs => rfl
          | obj fs2 => rfl
    | null => rfl
    | bool bv => rfl
    | num nv => rfl
    | str sv => rfl
    | arr xs => rfl

theorem rget_foldl_processDecl (blocks : List (Option JVal)) (st : SchemaResult) (u : String) :
    rget (blocks.foldl processDecl st).schemas (.str u)
      = mergedInto (rget st.schemas (.str u)) (acceptedDecls u blocks) := by
  induction blocks generalizing st with
  | nil => rfl
  | cons b rest ih =>
      rw [List.foldl_cons, ih]
      cases hb : declFieldsFor u b with
      | none =>
          have hreg : rget (processDecl st b).schemas (.str u) = rget st.schemas (.str u) := by
            rw [rget_processDecl, hb]
          rw [hreg]
          simp [acceptedDecls, List.filterMap_cons, hb]
      | some f =>
          have hreg : rget (processDecl st b).schemas (.str u)
              = some (dupdate (rgetD st.schemas (.str u) []) f) := by
            rw [rget_processDecl, hb]
          rw [hreg]
          simp only [acceptedDecls, List.filterMap_cons, hb]
          rw [mergedInto, mergedInto, List.foldl_cons]
          rfl

theorem processSchemaFile_schemas (st : SchemaResult) (blocks : List (Option JVal)) :
    (processSchemaFile st blocks).schemas
      = (blocks.foldl processDecl { st with cnt_files := st.cnt_files + 1 }).schemas := rfl

theorem rget_extract_aux (files : List (List (Option JVal))) (st : SchemaResult) (u : String) :
    rget (files.foldl processSchemaFile st).schemas (.str u)
      = mergedInto (rget st.schemas (.str u)) (acceptedDecls u files.flatten) := by
  induction files generalizing st with
  | nil => rfl
  | cons f rest ih =>
      rw [List.foldl_cons, ih]
      have h1 : rget (processSchemaFile st f).schemas (.str u)
          = mergedInto (rget st.schemas (.str u)) (acceptedDecls u f) := by
        rw [processSchemaFile_schemas, rget_foldl_processDecl]
      rw [h1]
      have hflat : (f :: rest).flatten = f ++ rest.flatten := rfl
      rw [hflat]
      have hacc : acceptedDecls u (f ++ rest.flatten)
          = acceptedDecls u f ++ acceptedDecls u rest.flatten := by
        unfold acceptedDecls
        exact List.filterMap_append _ _ _
      rw [hacc, mergedInto_append]

/-- The registry slot for a string uri equals the shallow merge of all
accepted declarations with that uri, in file-then-block processing
order. -/
theorem rget_extractSchemas (files : List (List (Option JVal))) (u : String) :
    rget (extractSchemas files).schemas (.str u)
      = mergedInto none (acceptedDecls u files.flatten) := by
  unfold extractSchemas
  exact rget_extract_aux files _ u

theorem processDecl_warnings (st : SchemaResult) (b : Option JVal) :
    (processDecl st b).warnings
      = st.warnings + (if blockWarns b then 1 else 0) := by
  cases b with
  | none => rfl
  | some o =>
    cases o with
    | obj fields =>
        rw [processDecl, blockWarns]
        cases hs : dget fields "$schema" with
        | none => rfl
        | some m =>
          cases m with
          | str marker =>
              by_cases hm : marker = wampSchemaMarker
              · cases hu : dget fields "uri" with
                | none => simp [hm]
                | some uri => cases uri <;> simp [hm, jhashable]
              · simp [hm]
          | null => rfl
          | bool bv => rfl
          | num nv => rfl
          | arr xs => rfl
          | obj fs2 => rfl
    | null => rfl
    | bool bv => rfl
    | num nv => rfl
    | str sv => rfl
    | arr xs => rfl

theorem processDecl_decls (st : SchemaResult) (b : Option JVal) :
    (processDecl st b).cnt_decls
      = st.cnt_decls + (if blockAccepted b then 1 else 0) := by
  cases b with
  | none => rfl
  | some o =>
    cases o with
    | obj fields =>
        rw [processDecl, blockAccepted]
        cases hs : dget fields "$schema" with
        | none => rfl
        | some m =>
          cases m with
          | str marker =>
              by_cases hm : marker = wampSchemaMarker
              · cases hu : dget fields "uri" with
                | none => simp [hm]
                | some uri => cases uri <;> simp [hm, jhashable]
              · simp [hm]
          | null => rfl
          | bool bv => rfl
          | num nv => rfl
          | arr xs => rfl
          | obj fs2 => rfl
    | null => rfl
    | bool bv => rfl
    | num nv => rfl
    | str sv => rfl
    | arr xs => rfl

theorem processDecl_files (st : SchemaResult) (b : Option JVal) :
    (processDecl st b).cnt_files = st.cnt_files := by
  cases b with
  | none => rfl
  | some o =>
    cases o with
    | obj fields =>
        rw [processDecl]
        cases hs : dget fields "$schema" with
        | none => rfl
        | some m =>
          cases m with
          | str marker =>
              by_cases hm : marker = wampSchemaMarker
              · cases hu : dget fields "uri" with
                | none => simp [hm]
                | some uri => cases uri <;> simp [hm, jhashable]
              · simp [hm]
          | null => rfl
          | bool bv => rfl
          | num nv => rfl
          | arr xs => rfl
          | obj fs2 => rfl
    | null => rfl
    | bool bv => rfl
    | num nv => rfl
    | str sv => rfl
    | arr xs => rfl

theorem foldl_processDecl_files (blocks : List (Option JVal)) (st : SchemaResult) :
    (blocks.foldl processDecl st).cnt_files = st.cnt_files := by
  induction blocks generalizing st with
  | nil => rfl
  | cons b rest ih =>
      rw [List.foldl_cons, ih, processDecl_files]

theorem foldl_processDecl_warnings (blocks : List (Option JVal)) (st : SchemaResult) :
    (blocks.foldl processDecl st).warnings
      = st.warnings + blocks.countP blockWarns := by
  induction blocks generalizing st with
  | nil => rfl
  | cons b rest ih =>
      rw [List.foldl_cons, ih, processDecl_warnings, List.countP_cons]
      by_cases hb : blockWarns b
      · simp [hb]; omega
      · simp [hb]

theorem foldl_processDecl_decls (blocks : List (Option JVal)) (st : SchemaResult) :
    (blocks.foldl processDecl st).cnt_decls
      = st.cnt_decls + blocks.countP blockAccepted := by
  induction blocks generalizing st with
  | nil => rfl
  | cons b rest ih =>
      rw [List.foldl_cons, ih, processDecl_decls, List.countP_cons]
      by_cases hb : blockAccepted b
      · simp [hb]; omega
      · simp [hb]

theorem extract_counts_aux (files : List (List (Option JVal))) (st : SchemaResult) :
    (files.foldl processSchemaFile st).warnings
        = st.warnings + (files.flatten).countP blockWarns
      ∧ (files.foldl processSchemaFile st).cnt_decls
        = st.cnt_decls + (files.flatten).countP blockAccepted
      ∧ (files.foldl processSchemaFile st).cnt_files
        = st.cnt_files + files.length := by
  induction files generalizing st with
  | nil => simp
  | cons f rest ih =>
      rw [List.foldl_cons]
      obtain ⟨ih1, ih2, ih3⟩ := ih (processSchemaFile st f)
      refine ⟨?_, ?_, ?_⟩
      · rw [ih1]
        have : (processSchemaFile st f).warnings = st.warnings + f.countP blockWarns := by
          unfold processSchemaFile
          rw [foldl_processDecl_warnings]
        rw [this]
        simp [List.countP_append]
        omega
      · rw [ih2]
        have : (processSchemaFile st f).cnt_decls = st.cnt_decls + f.countP blockAccepted := by
          unfold processSchemaFile
          rw [foldl_processDecl_decls]
        rw [this]
        simp [List.countP_append]
        omega
      · rw [ih3]
        have hc : (processSchemaFile st f).cnt_files = st.cnt_files + 1 := by
          unfold processSchemaFile
          rw [foldl_processDecl_files]
        rw [hc]
        simp [List.length_cons]
        omega

/-! ### The failing call, when an RPC failure aborts, is the last issued -/

theorem failsLast_nil : failsLast ([], none) := by
  intro c hc
  exact Option.noConfusion hc

theorem failsLast_keyError (tr : List Call) (k : String) :
    failsLast (tr, some (.keyError k)) := by
  intro c hc
  simp at hc

theorem failsLast_logicError (tr : List Call) :
    failsLast (tr, some .logicError) := by
  intro c hc
  simp at hc

theorem failsLast_issue1 (rpcOk : RpcOk) (c : Call) : failsLast (issue1 rpcOk c) := by
  intro c0 hc0
  by_cases hrc : rpcOk c = true
  · simp [issue1, hrc] at hc0
  · have hrc' : rpcOk c = false := by simpa using hrc
    simp [issue1, hrc'] at hc0 ⊢
    exact hc0

theorem failsLast_seqThen {r : List Call × Option Err} {f : Unit → List Call × Option Err}
    (hr : failsLast r) (hf : failsLast (f ())) : failsLast (seqThen r f) := by
  obtain ⟨tr, e⟩ := r
  cases e with
  | some e0 =>
      intro c hc
      exact hr c hc
  | none =>
      intro c hc
      simp only [seqThen] at hc ⊢
      have hlast := hf c hc
      have hne : (f ()).1 ≠ [] := by
        intro hnil
        rw [hnil] at hlast
        exact Option.noConfusion hlast
      rw [List.getLast?_append_of_ne_nil tr hne]
      exact hlast

theorem failsLast_startRoles (rpcOk : RpcOk) (w R : String) (roles : List JVal) (n : Nat) :
    failsLast (startRoles rpcOk w R n roles) := by
  induction roles generalizing n with
  | nil => exact failsLast_nil
  | cons r rest ih =>
      rw [startRoles]
      apply failsLast_seqThen (failsLast_issue1 _ _)
      cases hn : dget (resolveId "role" n (asObj r)).2.1 "name" with
      | none => exact failsLast_keyError _ _
      | some v => exact ih _

theorem failsLast_startRealms (rpcOk : RpcOk) (fs : FS) (w : String) (realms : List JVal)
    (n : Nat) : failsLast (startRealms rpcOk fs w n realms) := by
  induction realms generalizing n with
  | nil => exact failsLast_nil
  | cons r rest ih =>
      rw [startRealms]
      apply failsLast_seqThen (failsLast_issue1 _ _)
      cases hn : dget (popSchemas fs (resolveId "realm" n (asObj r)).2.1).2 "name" with
      | none => exact failsLast_keyError _ _
      | some v =>
          exact failsLast_seqThen (failsLast_startRoles _ _ _ _ _) (ih _)

theorem failsLast_startRouterComponents (rpcOk : RpcOk) (w : String) (cs : List JVal)
    (n : Nat) : failsLast (startRouterComponents rpcOk w n cs) := by
  induction cs generalizing n with
  | nil => exact failsLast_nil
  | cons c rest ih =>
      rw [startRouterComponents]
      exact failsLast_seqThen (failsLast_issue1 _ _) (ih _)

theorem failsLast_startTransports (rpcOk : RpcOk) (w : String) (ts : List JVal)
    (n : Nat) : failsLast (startTransports rpcOk w n ts) := by
  induction ts generalizing n with
  | nil => exact failsLast_nil
  | cons t rest ih =>
      rw [startTransports]
      exact failsLast_seqThen (failsLast_issue1 _ _) (ih _)

theorem failsLast_startContainerComponents (rpcOk : RpcOk) (w : String) (cs : List JVal)
    (n : Nat) : failsLast (startContainerComponents rpcOk w n cs) := by
  induction cs generalizing n with
  | nil => exact failsLast_nil
  | cons c rest ih =>
      rw [startContainerComponents]
      exact failsLast_seqThen (failsLast_issue1 _ _) (ih _)

theorem failsLast_genericWorkerSetup (rpcOk : RpcOk) (w : String) (worker : Dict)
    (opts : JVal) : failsLast (genericWorkerSetup rpcOk w worker opts) := by
  unfold genericWorkerSetup
  apply failsLast_seqThen
  · by_cases hp : optContains opts "pythonpath" <;> simp only [hp, if_true, if_false]
    · exact failsLast_issue1 _ _
    · exact failsLast_nil
  · apply failsLast_seqThen
    · by_cases hc : optContains opts "cpu_affinity" <;> simp only [hc, if_true, if_false]
      · exact failsLast_issue1 _ _
      · exact failsLast_nil
    · cases hm : dget worker "manhole" with
      | none => exact failsLast_nil
      | some v => exact failsLast_issue1 _ _

theorem failsLast_processWorker (rpcOk : RpcOk) (fs : FS) (w : String) (worker : Dict) :
    failsLast (processWorker rpcOk fs w worker) := by
  unfold processWorker
  cases ht : dget worker "type" with
  | none => exact failsLast_keyError _ _
  | some t =>
    cases t with
    | str s =>
        by_cases h1 : s = "router"
        · simp only [h1, if_true]
          apply failsLast_seqThen (failsLast_issue1 _ _)
          apply failsLast_seqThen (failsLast_genericWorkerSetup _ _ _ _)
          apply failsLast_seqThen (failsLast_startRealms _ _ _ _ _)
          apply failsLast_seqThen (failsLast_startRouterComponents _ _ _ _)
          cases htv : dget worker "transports" with
          | none => exact failsLast_keyError _ _
          | some tv => exact failsLast_startTransports _ _ _ _
        · simp only [h1, if_false]
          by_cases h2 : s = "container"
          · simp only [h2, if_true]
            apply failsLast_seqThen (failsLast_issue1 _ _)
            apply failsLast_seqThen (failsLast_genericWorkerSetup _ _ _ _)
            apply failsLast_seqThen (failsLast_issue1 _ _)
            apply failsLast_seqThen (failsLast_startContainerComponents _ _ _ _)
            intro c hc
            exact Option.noConfusion hc
          · simp only [h2, if_false]
            by_cases h3 : s = "guest"
            · simp only [h3, if_true]
              exact failsLast_issue1 _ _
            · simp only [h3, if_false]
              exact failsLast_logicError _
    | null => exact failsLast_logicError _
    | bool bv => exact failsLast_logicError _
    | num nv => exact failsLast_logicError _
    | arr xs => exact failsLast_logicError _
    | obj fs2 => exact failsLast_logicError _

theorem failsLast_startWorkers (rpcOk : RpcOk) (fs : FS) (ws : List JVal) (n : Nat) :
    failsLast (startWorkers rpcOk fs n ws) := by
  induction ws generalizing n with
  | nil => exact failsLast_nil
  | cons w rest ih =>
      rw [startWorkers]
      exact failsLast_seqThen (failsLast_processWorker _ _ _ _) (ih _)

theorem failsLast_startupStandalone (rpcOk : RpcOk) (fs : FS) (config : Dict) :
    failsLast (startupStandalone rpcOk fs config) := by
  unfold startupStandalone
  apply failsLast_seqThen
  · cases hm : dget (asObj (dgetD config "controller" (.obj []))) "manhole" with
    | none => exact failsLast_nil
    | some v => exact failsLast_issue1 _ _
  · apply failsLast_seqThen
    · cases ht : dget (asObj (dgetD config "controller" (.obj []))) "transport" with
      | none => exact failsLast_nil
      | some v => exact failsLast_issue1 _ _
    · exact failsLast_startWorkers _ _ _ _

/-! ### Reactor and watchdog lemmas -/

theorem handleStartupFailure_stops (r : Reactor) :
    handleStartupFailure r = { running := false } := by
  obtain ⟨b⟩ := r
  cases b <;> rfl

theorem wdRun_inside_grace (T : Nat) (comp : String) :
    wdRun wdArmed [(T + 1, .componentStop comp), (T + 2, .unsubTimer)]
      = { subscribed := false, running := false, stopCount := 1 } := by
  have h1 : T + 1 < T + 2 := by omega
  simp [wdRun, insertByTime, h1, wdStep, wdArmed]

theorem wdRun_after_grace (T : Nat) (comp : String) :
    wdRun wdArmed [(T + 3, .componentStop comp), (T + 2, .unsubTimer)]
      = { subscribed := false, running := true, stopCount := 0 } := by
  have h1 : ¬ (T + 3 < T + 2) := by omega
  simp [wdRun, insertByTime, h1, wdStep, wdArmed]

/-! ### Positional characterization of id generation -/

theorem resolveIds_length (kind : String) (specs : List Dict) :
    ∀ n, (resolveIds kind n specs).length = specs.length := by
  induction specs with
  | nil => intro n; rfl
  | cons spec rest ih =>
      intro n
      rw [resolveIds]
      cases hid : dget spec "id" <;> simp [resolveId, hid, ih]

theorem resolveIds_auto (kind : String) (specs : List Dict) :
    ∀ (n i : Nat) (h : i < specs.length),
      dget (specs.get ⟨i, h⟩) "id" = none →
      (resolveIds kind n specs)[i]?
        = some (kind ++ toString (n + (specs.take i).countP (fun s => (dget s "id").isNone))) := by
  induction specs with
  | nil => intro n i h; exact absurd h (by simp)
  | cons spec rest ih =>
      intro n i h hid
      cases i with
      | zero =>
          rw [resolveIds]
          simp only [List.get] at hid
          simp [resolveId, hid]
      | succ i =>
          rw [resolveIds]
          have h' : i < rest.length := by simpa using h
          have hid' : dget (rest.get ⟨i, h'⟩) "id" = none := hid
          cases hhead : dget spec "id" with
          | some v =>
              simp only [resolveId, hhead]
              rw [List.getElem?_cons_succ]
              rw [ih n i h' hid']
              have hcnt : ((spec :: rest).take (i + 1)).countP (fun s => (dget s "id").isNone)
                  = (rest.take i).countP (fun s => (dget s "id").isNone) := by
                simp [List.take_succ_cons, List.countP_cons, hhead]
              rw [hcnt]
          | none =>
              simp only [resolveId, hhead]
              rw [List.getElem?_cons_succ]
              rw [ih (n + 1) i h' hid']
              have hcnt : ((spec :: rest).take (i + 1)).countP (fun s => (dget s "id").isNone)
                  = (rest.take i).countP (fun s => (dget s "id").isNone) + 1 := by
                simp [List.take_succ_cons, List.countP_cons, hhead]
              rw [hcnt]
              have harith : n + 1 + (rest.take i).countP (fun s => (dget s "id").isNone)
                  = n + ((rest.take i).countP (fun s => (dget s "id").isNone) + 1) := by omega
              rw [harith]

/-- Index separation packaged for `Fin` indices over a decomposed list. -/
theorem index_separation_fin {α : Type} {tr : List α} (A B : List α) (hAB : tr = A ++ B)
    (p q : α → Bool) (hA : ∀ c ∈ A, q c = false) (hB : ∀ c ∈ B, p c = false)
    (i j : Fin tr.length) (hp : p (tr.get i) = true) (hq : q (tr.get j) = true) :
    (i : Nat) < (j : Nat) := by
  subst hAB
  exact index_separation A B p q hA hB i j i.isLt j.isLt hp hq

/-- The first call issued for a router worker is its spawn call, for any
oracle. -/
theorem processWorker_router_head (rpcOk : RpcOk) (fs : FS) (w : String) (worker : Dict)
    (ht : dget worker "type" = some (.str "router")) :
    (processWorker rpcOk fs w worker).1.head?
      = some (.start_router w (dgetD worker "options" (.obj []))) := by
  unfold processWorker
  rw [ht]
  cases hrc : rpcOk (.start_router w (dgetD worker "options" (.obj []))) <;>
    simp [issue1, hrc, seqThen]

/-- The first call issued for a container worker is its spawn call, for
any oracle. -/
theorem processWorker_container_head (rpcOk : RpcOk) (fs : FS) (w : String) (worker : Dict)
    (ht : dget worker "type" = some (.str "container")) :
    (processWorker rpcOk fs w worker).1.head?
      = some (.start_container w (dgetD worker "options" (.obj []))) := by
  unfold processWorker
  rw [ht]
  cases hrc : rpcOk (.start_container w (dgetD worker "options" (.obj []))) <;>
    simp [issue1, hrc, seqThen]

/-- A block that neither warns nor is accepted leaves the extraction
state untouched (silent skip). -/
theorem processDecl_silent (st : SchemaResult) (b : Option JVal)
    (hw : blockWarns b = false) (ha : blockAccepted b = false) :
    processDecl st b = st := by
  cases b with
  | none => exact absurd hw (by simp [blockWarns])
  | some o =>
    cases o with
    | obj fields =>
        rw [blockWarns] at hw
        rw [blockAccepted] at ha
        rw [processDecl]
        cases hs : dget fields "$schema" with
        | none => rfl
        | some m =>
          rw [hs] at hw ha
          cases m with
          | str marker =>
              by_cases hm : marker = wampSchemaMarker
              · simp only [hm, if_true] at hw ha ⊢
                cases hu : dget fields "uri" with
                | none => rw [hu] at hw; exact absurd hw (by simp)
                | some uri =>
                    rw [hu] at hw ha
                    cases huri : jhashable uri with
                    | true => simp [huri] at ha
                    | false => simp [huri] at hw
              · simp [hm]
          | null => rfl
          | bool bv => rfl
          | num nv => rfl
          | arr xs => rfl
          | obj fs2 => rfl
    | null => rfl
    | bool bv => rfl
    | num nv => rfl
    | str sv => rfl
    | arr xs => rfl

theorem resolveIds_explicit (kind : String) (specs : List Dict) :
    ∀ (n i : Nat) (h : i < specs.length) (v : JVal),
      dget (specs.get ⟨i, h⟩) "id" = some v →
      (resolveIds kind n specs)[i]? = some (idString v) := by
  induction specs with
  | nil => intro n i h; exact absurd h (by simp)
  | cons spec rest ih =>
      intro n i h v hid
      cases i with
      | zero =>
          rw [resolveIds]
          simp only [List.get] at hid
          simp [resolveId, hid]
      | succ i =>
          rw [resolveIds]
          have h' : i < rest.length := by simpa using h
          have hid' : dget (rest.get ⟨i, h'⟩) "id" = some v := hid
          cases hhead : dget spec "id" with
          | some v0 =>
              simp only [resolveId, hhead]
              rw [List.getElem?_cons_succ]
              exact ih n i h' v hid'
          | none =>
              simp only [resolveId, hhead]
              rw [List.getElem?_cons_succ]
              exact ih (n + 1) i h' v hid'

/-- Discriminator values on generic setup calls. -/
theorem genericCalls_flags {w : String} {worker : Dict} {opts : JVal} {c : Call}
    (h : c ∈ genericCalls w worker opts) :
    isRealmCall c = false ∧ isRoleCall c = false ∧ isRouterComponentCall c = false
      ∧ isTransportCall c = false ∧ isContainerComponentCall c = false
      ∧ isSubscribeCall c = false ∧ isScheduleUnsubscribeCall c = false := by
  rcases mem_genericCalls h with ⟨v, rfl⟩ | ⟨v, rfl⟩ | ⟨v, rfl⟩ <;>
    exact ⟨rfl, rfl, rfl, rfl, rfl, rfl, rfl⟩

/-- Discriminator values on realm-phase calls. -/
theorem realmsCalls_flags {fs : FS} {w : String} {n : Nat} {realms : List JVal} {c : Call}
    (h : c ∈ realmsCalls fs w n realms) :
    isRouterComponentCall c = false ∧ isTransportCall c = false
      ∧ isContainerComponentCall c = false ∧ isSubscribeCall c = false
      ∧ isScheduleUnsubscribeCall c = false := by
  rcases mem_realmsCalls h with ⟨rid, rd, sch, rfl⟩ | ⟨R, rid, rd, rfl⟩ <;>
    exact ⟨rfl, rfl, rfl, rfl, rfl⟩

/-! ### Claim theorems -/

/-- C4: the SchemaRegistry built for one realm-start call maps each
declaration uri to the shallow merge of all declarations with that uri,
processed in file-listing order, later fields overwriting earlier ones;
processing files `[A, B]` with `A = {uri: "x", a: 1}` and
`B = {uri: "x", a: 2, b: 3}` yields `a = 2, b = 3` under `"x"`, and
`[B, A]` yields `a = 1, b = 3`. -/
theorem C4_schema_merge :
    (∀ (files : List (List (Option JVal))) (u : String),
        rget (extractSchemas files).schemas (.str u)
          = mergedInto none (acceptedDecls u files.flatten))
    ∧ dget (rgetD (extractSchemas [[declBlockA], [declBlockB]]).schemas (.str "x") []) "a"
        = some (.num 2)
    ∧ dget (rgetD (extractSchemas [[declBlockA], [declBlockB]]).schemas (.str "x") []) "b"
        = some (.num 3)
    ∧ dget (rgetD (extractSchemas [[declBlockB], [declBlockA]]).schemas (.str "x") []) "a"
        = some (.num 1)
    ∧ dget (rgetD (extractSchemas [[declBlockB], [declBlockA]]).schemas (.str "x") []) "b"
        = some (.num 3) :=
  ⟨rget_extractSchemas, rfl, rfl, rfl, rfl⟩

/-- C5 counterexample: the claim says a block that parses but is not a
mapping carrying the dialect marker and a `uri` field is skipped
silently (no warning); but a parsed mapping carrying the marker with no
`uri` field raises `KeyError` inside the same `try`, which is caught and
logged as a warning — one warning, zero accepted declarations. -/
theorem C5_silent_skip_counterexample :
    ¬ ((extractSchemas [[declBlockNoUri]]).warnings = 0)
    ∧ (extractSchemas [[declBlockNoUri]]).warnings = 1
    ∧ (extractSchemas [[declBlockNoUri]]).cnt_decls = 0 :=
  ⟨by decide, rfl, rfl⟩

/-- C5 (amended): a fenced block whose body fails to parse is logged as a
warning and skipped without aborting extraction of subsequent blocks; a
block that parses but is not a mapping carrying the marker is skipped
silently; a mapping carrying the marker but lacking a `uri` field (or
whose `uri` is an unhashable value) also logs a warning; the declaration
count counts only accepted declarations. Every block of every file is
classified — extraction never aborts. -/
theorem C5_block_error_handling :
    (∀ files : List (List (Option JVal)),
        (extractSchemas files).warnings = (files.flatten).countP blockWarns
        ∧ (extractSchemas files).cnt_decls = (files.flatten).countP blockAccepted
        ∧ (extractSchemas files).cnt_files = files.length)
    ∧ (∀ (st : SchemaResult) (b : Option JVal),
        blockWarns b = false → blockAccepted b = false → processDecl st b = st)
    ∧ blockWarns none = true
    ∧ blockWarns declBlockNoUri = true
    ∧ blockAccepted declBlockNoUri = false := by
  refine ⟨fun files => ?_, processDecl_silent, rfl, rfl, rfl⟩
  have h := extract_counts_aux files
      { schemas := [], cnt_files := 0, cnt_decls := 0, warnings := 0 }
  obtain ⟨h1, h2, h3⟩ := h
  exact ⟨by simpa [extractSchemas] using h1, by simpa [extractSchemas] using h2,
         by simpa [extractSchemas] using h3⟩

/-- C5 witness for the silent-skip rule of the amended claim: a parsed
string block (not a mapping) leaves the extraction state untouched. -/
theorem C5_block_error_handling_witness :
    processDecl { schemas := [], cnt_files := 1, cnt_decls := 0, warnings := 0 }
        (some (.str "not a declaration"))
      = { schemas := [], cnt_files := 1, cnt_decls := 0, warnings := 0 } :=
  C5_block_error_handling.2.1
    { schemas := [], cnt_files := 1, cnt_decls := 0, warnings := 0 }
    (some (.str "not a declaration")) rfl rfl

/-- C6: node_id equals `config.manager.id` whenever a `manager` section
is present; otherwise `config.controller.id` when present; otherwise the
local host name — with the three concrete examples of the spec. -/
theorem C6_node_identity :
    (∀ (config : Dict) (hostname : String) (m i : JVal),
        dget config "manager" = some m → dget (asObj m) "id" = some i →
        resolveNodeId config hostname = .ok (idString i))
    ∧ (∀ (config : Dict) (hostname : String) (i : JVal),
        dget config "manager" = none →
        dget (asObj (dgetD config "controller" (.obj []))) "id" = some i →
        resolveNodeId config hostname = .ok (idString i))
    ∧ (∀ (config : Dict) (hostname : String),
        dget config "manager" = none →
        dget (asObj (dgetD config "controller" (.obj []))) "id" = none →
        resolveNodeId config hostname = .ok hostname)
    ∧ (∀ hostname : String,
        resolveNodeId [("manager", .obj [("id", .str "M")]),
                       ("controller", .obj [("id", .str "C")])] hostname = .ok "M")
    ∧ (∀ hostname : String,
        resolveNodeId [("controller", .obj [("id", .str "C")])] hostname = .ok "C")
    ∧ (∀ hostname : String, resolveNodeId [] hostname = .ok hostname) := by
  refine ⟨?_, ?_, ?_, fun hostname => rfl, fun hostname => rfl, fun hostname => rfl⟩
  · intro config hostname m i hm hi
    unfold resolveNodeId
    simp [dcontains, dgetD, hm, hi]
  · intro config hostname i hm hi
    unfold resolveNodeId
    simp [dcontains, hm, hi]
  · intro config hostname hm hi
    unfold resolveNodeId
    simp [dcontains, hm, hi]

/-- C6 witness: the manager rule applied to the spec's first example. -/
theorem C6_node_identity_witness :
    resolveNodeId [("manager", .obj [("id", .str "M")]),
                   ("controller", .obj [("id", .str "C")])] "myhost" = .ok "M" :=
  C6_node_identity.1 [("manager", .obj [("id", .str "M")]),
                      ("controller", .obj [("id", .str "C")])] "myhost"
    (.obj [("id", .str "M")]) (.str "M") rfl rfl

/-- C1: in every ordered spec list, an element lacking an explicit `id`
at position `i` is assigned `"<kind><n>"` where `n` is one plus the
number of auto-assigned (id-less) elements before it, while elements
with an explicit `id` keep it and do not consume a counter slot; and the
spec's worker example resolves to ids `worker1`, `custom`, `worker2`. -/
theorem C1_id_generation :
    (∀ (kind : String) (specs : List Dict) (i : Nat) (h : i < specs.length),
        (dget (specs.get ⟨i, h⟩) "id" = none →
          (resolveIds kind 1 specs)[i]?
            = some (kind ++ toString
                (1 + (specs.take i).countP (fun s => (dget s "id").isNone))))
        ∧ (∀ v, dget (specs.get ⟨i, h⟩) "id" = some v →
            (resolveIds kind 1 specs)[i]? = some (idString v)))
    ∧ (startWorkers alwaysOk emptyFS 1 exampleWorkers).1.filterMap spawnId
        = ["worker1", "custom", "worker2"] := by
  refine ⟨fun kind specs i h =>
    ⟨fun hid => resolveIds_auto kind specs 1 i h hid,
     fun v hv => resolveIds_explicit kind specs 1 i h v hv⟩, ?_⟩
  rfl

/-- C1 witness: the third worker of the example list (no explicit id,
one auto-assigned element before it) receives id `worker2`. -/
theorem C1_id_generation_witness :
    (resolveIds "worker" 1
        [[("type", JVal.str "router")], [("id", JVal.str "custom")], []])[2]?
      = some "worker2" := by
  have h := (C1_id_generation.1 "worker"
      [[("type", JVal.str "router")], [("id", JVal.str "custom")], []] 2
      (by decide)).1 rfl
  exact h.trans (by rfl)

/-- C9: every fatal startup failure stops issuing further RPCs (when the
failure is a failed RPC, that call is the last one issued), requests the
event loop to stop, and appends no rollback calls to the trace; the stop
request is absorbed when the loop is already stopped — for any initial
reactor state the handler returns normally with the loop stopped. -/
theorem C9_fatal_abort (rpcOk : RpcOk) (fs : FS) (config : Dict) (r : Reactor) :
    (∀ e, (startupStandalone rpcOk fs config).2 = some e →
        runStandalone rpcOk fs config r
          = ((startupStandalone rpcOk fs config).1, some e, { running := false }))
    ∧ (∀ c, (startupStandalone rpcOk fs config).2 = some (.rpcFailure c) →
        (startupStandalone rpcOk fs config).1.getLast? = some c) := by
  constructor
  · intro e he
    simp [runStandalone, he, handleStartupFailure_stops]
  · intro c hc
    exact failsLast_startupStandalone rpcOk fs config c hc

/-- C9 witness: a failing guest-worker start with an already-stopped
reactor — the trace holds only the failing call, the loop-stop request is
absorbed, and the failing call is the last issued. -/
theorem C9_fatal_abort_witness :
    runStandalone neverOk emptyFS exampleGuestConfig { running := false }
      = ([.start_guest "worker1" [("type", JVal.str "guest")]],
         some (.rpcFailure (.start_guest "worker1" [("type", JVal.str "guest")])),
         { running := false })
    ∧ (startupStandalone neverOk emptyFS exampleGuestConfig).1.getLast?
      = some (.start_guest "worker1" [("type", JVal.str "guest")]) := by
  constructor
  · have h := (C9_fatal_abort neverOk emptyFS exampleGuestConfig { running := false }).1
        (.rpcFailure (.start_guest "worker1" [("type", JVal.str "guest")])) rfl
    exact h.trans (by rfl)
  · exact (C9_fatal_abort neverOk emptyFS exampleGuestConfig { running := false }).2
      (.start_guest "worker1" [("type", JVal.str "guest")]) rfl

/-- C10: the spawn payload differs by worker type — router and container
spawns carry only the worker's `options` sub-dictionary (empty object if
absent), while a guest spawn carries the whole remaining worker spec with
the resolved `id` removed but `type` and `options` still present. -/
theorem C10_spawn_payloads (rpcOk : RpcOk) (fs : FS) (n : Nat) (w : Dict) :
    (dget w "type" = some (.str "router") →
        (processWorker rpcOk fs (resolveId "worker" n w).1 (resolveId "worker" n w).2.1).1.head?
          = some (.start_router (resolveId "worker" n w).1 (dgetD w "options" (.obj []))))
    ∧ (dget w "type" = some (.str "container") →
        (processWorker rpcOk fs (resolveId "worker" n w).1 (resolveId "worker" n w).2.1).1.head?
          = some (.start_container (resolveId "worker" n w).1 (dgetD w "options" (.obj []))))
    ∧ (dget w "type" = some (.str "guest") →
        (processWorker rpcOk fs (resolveId "worker" n w).1 (resolveId "worker" n w).2.1).1
          = [.start_guest (resolveId "worker" n w).1 (resolveId "worker" n w).2.1]
        ∧ dget (resolveId "worker" n w).2.1 "type" = dget w "type"
        ∧ dget (resolveId "worker" n w).2.1 "options" = dget w "options"
        ∧ dget (resolveId "worker" n w).2.1 "id" = none) := by
  have htype : ∀ k, k ≠ "id" → dget (resolveId "worker" n w).2.1 k = dget w k :=
    fun k hk => dget_resolveId_ne "worker" n w k hk
  have hopts : dgetD (resolveId "worker" n w).2.1 "options" (.obj [])
      = dgetD w "options" (.obj []) := by
    unfold dgetD
    rw [htype "options" (by decide)]
  refine ⟨fun ht => ?_, fun ht => ?_, fun ht => ?_⟩
  · rw [processWorker_router_head rpcOk fs _ _ (by rw [htype "type" (by decide)]; exact ht)]
    rw [hopts]
  · rw [processWorker_container_head rpcOk fs _ _ (by rw [htype "type" (by decide)]; exact ht)]
    rw [hopts]
  · refine ⟨?_, ?_, ?_, ?_⟩
    · rw [processWorker_guest_eq rpcOk fs _ _ (by rw [htype "type" (by decide)]; exact ht)]
      cases hrc : rpcOk (.start_guest (resolveId "worker" n w).1 (resolveId "worker" n w).2.1) <;>
        simp [issue1, hrc]
    · exact htype "type" (by decide)
    · exact htype "options" (by decide)
    · exact dget_resolveId_id "worker" n w

/-- C10 witness: a guest worker spec with an explicit id — the spawn call
carries the spec with `id` removed and `type` and `options` intact. -/
theorem C10_spawn_payloads_witness :
    (processWorker alwaysOk emptyFS
        (resolveId "worker" 1 [("id", JVal.str "g1"), ("type", JVal.str "guest"),
                               ("options", JVal.obj [])]).1
        (resolveId "worker" 1 [("id", JVal.str "g1"), ("type", JVal.str "guest"),
                               ("options", JVal.obj [])]).2.1).1
      = [.start_guest "g1" [("type", JVal.str "guest"), ("options", JVal.obj [])]] := by
  have h := ((C10_spawn_payloads alwaysOk emptyFS 1
      [("id", JVal.str "g1"), ("type", JVal.str "guest"),
       ("options", JVal.obj [])]).2.2 rfl).1
  exact h.trans (by rfl)

/-- C3: for every container worker the stop-event subscription is created
before the first `start_container_component` call, and its removal is
scheduled with a 2-unit delay after the last component-start call (the
scheduling is the final action of the worker's processing); on the timed
watchdog model, a component-stop event 1 time unit after the starts
completed (inside the grace window) stops the reactor exactly once,
while an event 3 time units after finds the subscription already removed
and triggers no shutdown. -/
theorem C3_container_watchdog (fs : FS) (w : String) (worker : Dict)
    (ht : dget worker "type" = some (.str "container")) :
    (∀ (i j : Fin (processWorker alwaysOk fs w worker).1.length),
        isSubscribeCall ((processWorker alwaysOk fs w worker).1.get i) = true →
        isContainerComponentCall ((processWorker alwaysOk fs w worker).1.get j) = true →
        (i : Nat) < (j : Nat))
    ∧ (∀ (i j : Fin (processWorker alwaysOk fs w worker).1.length),
        isContainerComponentCall ((processWorker alwaysOk fs w worker).1.get i) = true →
        isScheduleUnsubscribeCall ((processWorker alwaysOk fs w worker).1.get j) = true →
        (i : Nat) < (j : Nat))
    ∧ (processWorker alwaysOk fs w worker).1.getLast? = some (.schedule_unsubscribe w 2)
    ∧ (∀ (T : Nat) (comp : String),
        wdRun wdArmed [(T + 1, .componentStop comp), (T + 2, .unsubTimer)]
          = { subscribed := false, running := false, stopCount := 1 })
    ∧ (∀ (T : Nat) (comp : String),
        wdRun wdArmed [(T + 3, .componentStop comp), (T + 2, .unsubTimer)]
          = { subscribed := false, running := true, stopCount := 0 }) := by
  have hEq := processWorker_container_eq fs w worker ht
  refine ⟨?_, ?_, ?_, wdRun_inside_grace, wdRun_after_grace⟩
  · have htr : (processWorker alwaysOk fs w worker).1
        = (.start_container w (dgetD worker "options" (.obj []))
            :: (genericCalls w worker (dgetD worker "options" (.obj []))
                ++ [.subscribe_on_component_stop w]))
          ++ (containerComponentsCalls w 1 (workerComponents worker)
              ++ [.schedule_unsubscribe w 2]) := by
      rw [hEq]
      simp [List.append_assoc]
    intro i j hp hq
    refine index_separation_fin _ _ htr _ _ ?_ ?_ i j hp hq
    · intro c hc
      rcases List.mem_cons.mp hc with rfl | hc2
      · rfl
      · rcases List.mem_append.mp hc2 with hc3 | hc3
        · exact (genericCalls_flags hc3).2.2.2.2.1
        · rw [List.mem_singleton.mp hc3]; rfl
    · intro c hc
      rcases List.mem_append.mp hc with hc3 | hc3
      · obtain ⟨cid, cd, rfl⟩ := mem_containerComponentsCalls hc3; rfl
      · rw [List.mem_singleton.mp hc3]; rfl
  · have htr : (processWorker alwaysOk fs w worker).1
        = (.start_container w (dgetD worker "options" (.obj []))
            :: ((genericCalls w worker (dgetD worker "options" (.obj []))
                ++ [.subscribe_on_component_stop w])
                ++ containerComponentsCalls w 1 (workerComponents worker)))
          ++ [.schedule_unsubscribe w 2] := by
      rw [hEq]
      simp [List.append_assoc]
    intro i j hp hq
    refine index_separation_fin _ _ htr _ _ ?_ ?_ i j hp hq
    · intro c hc
      rcases List.mem_cons.mp hc with rfl | hc2
      · rfl
      · rcases List.mem_append.mp hc2 with hc3 | hc3
        · rcases List.mem_append.mp hc3 with hc4 | hc4
          · exact (genericCalls_flags hc4).2.2.2.2.2.2
          · rw [List.mem_singleton.mp hc4]; rfl
        · obtain ⟨cid, cd, rfl⟩ := mem_containerComponentsCalls hc3; rfl
    · intro c hc
      rw [List.mem_singleton.mp hc]; rfl
  · have htr : (processWorker alwaysOk fs w worker).1
        = (.start_container w (dgetD worker "options" (.obj []))
            :: ((genericCalls w worker (dgetD worker "options" (.obj []))
                ++ [.subscribe_on_component_stop w])
                ++ containerComponentsCalls w 1 (workerComponents worker)))
          ++ [.schedule_unsubscribe w 2] := by
      rw [hEq]
      simp [List.append_assoc]
    rw [htr, List.getLast?_append_of_ne_nil _ (by simp)]
    rfl

/-- C3 witness: a concrete container worker — the unsubscription schedule
closes its trace — and the two timed scenarios at `T = 0`. -/
theorem C3_container_watchdog_witness :
    (processWorker alwaysOk emptyFS "cw" [("type", JVal.str "container")]).1.getLast?
      = some (.schedule_unsubscribe "cw" 2)
    ∧ wdRun wdArmed [(0 + 1, .componentStop "comp"), (0 + 2, .unsubTimer)]
      = { subscribed := false, running := false, stopCount := 1 }
    ∧ wdRun wdArmed [(0 + 3, .componentStop "comp"), (0 + 2, .unsubTimer)]
      = { subscribed := false, running := true, stopCount := 0 } :=
  ⟨(C3_container_watchdog emptyFS "cw" [("type", JVal.str "container")] rfl).2.2.1,
   (C3_container_watchdog emptyFS "cw" [("type", JVal.str "container")] rfl).2.2.2.1 0 "comp",
   (C3_container_watchdog emptyFS "cw" [("type", JVal.str "container")] rfl).2.2.2.2 0 "comp"⟩

/-- C8: a router worker spec lacking the `transports` key aborts with the
`KeyError` when the transport sub-phase is reached, after all of its
realm, role and embedded-component calls have already been issued, and
with no transport call issued. -/
theorem C8_missing_transports (fs : FS) (w : String) (worker : Dict)
    (ht : dget worker "type" = some (.str "router"))
    (hr : (workerRealms worker).all realmWF = true)
    (htv : dget worker "transports" = none) :
    (processWorker alwaysOk fs w worker).2 = some (.keyError "transports")
    ∧ (processWorker alwaysOk fs w worker).1.countP isRealmCall
        = (workerRealms worker).length
    ∧ (processWorker alwaysOk fs w worker).1.countP isRoleCall
        = ((workerRealms worker).map (fun r => (realmRoles r).length)).sum
    ∧ (processWorker alwaysOk fs w worker).1.countP isRouterComponentCall
        = (workerComponents worker).length
    ∧ (processWorker alwaysOk fs w worker).1.countP isTransportCall = 0 := by
  have hEq := processWorker_router_noTransports fs w worker ht hr htv
  have hgen0 : ∀ (p : Call → Bool),
      (∀ c ∈ genericCalls w worker (dgetD worker "options" (.obj [])), p c = false) →
      (genericCalls w worker (dgetD worker "options" (.obj []))).countP p = 0 :=
    fun p hp => countP_eq_zero_of_mem hp
  have hco_realm : (routerComponentsCalls w 1 (workerComponents worker)).countP isRealmCall = 0 :=
    countP_eq_zero_of_mem (fun c hc => by
      obtain ⟨cid, cd, rfl⟩ := mem_routerComponentsCalls hc; rfl)
  have hco_role : (routerComponentsCalls w 1 (workerComponents worker)).countP isRoleCall = 0 :=
    countP_eq_zero_of_mem (fun c hc => by
      obtain ⟨cid, cd, rfl⟩ := mem_routerComponentsCalls hc; rfl)
  have hre_comp : (realmsCalls fs w 1 (workerRealms worker)).countP isRouterComponentCall = 0 :=
    countP_eq_zero_of_mem (fun c hc => (realmsCalls_flags hc).1)
  have hre_trans : (realmsCalls fs w 1 (workerRealms worker)).countP isTransportCall = 0 :=
    countP_eq_zero_of_mem (fun c hc => (realmsCalls_flags hc).2.1)
  have hco_trans : (routerComponentsCalls w 1 (workerComponents worker)).countP isTransportCall = 0 :=
    countP_eq_zero_of_mem (fun c hc => by
      obtain ⟨cid, cd, rfl⟩ := mem_routerComponentsCalls hc; rfl)
  refine ⟨by rw [hEq], ?_, ?_, ?_, ?_⟩
  · rw [hEq]
    simp only [List.countP_cons, List.countP_append]
    rw [countP_realmsCalls_realm, hco_realm,
        hgen0 _ (fun c hc => (genericCalls_flags hc).1)]
    simp [isRealmCall]
  · rw [hEq]
    simp only [List.countP_cons, List.countP_append]
    rw [countP_realmsCalls_role, hco_role,
        hgen0 _ (fun c hc => (genericCalls_flags hc).2.1)]
    simp [isRoleCall]
  · rw [hEq]
    simp only [List.countP_cons, List.countP_append]
    rw [countP_routerComponentsCalls, hre_comp,
        hgen0 _ (fun c hc => (genericCalls_flags hc).2.2.1)]
    simp [isRouterComponentCall]
  · rw [hEq]
    simp only [List.countP_cons, List.countP_append]
    rw [hre_trans, hco_trans,
        hgen0 _ (fun c hc => (genericCalls_flags hc).2.2.2.1)]
    simp [isTransportCall]

/-- C8 witness: a concrete router worker with one realm, one role, one
component and no `transports` key — the abort with `KeyError` happens
after the realm, role and component calls were all issued. -/
theorem C8_missing_transports_witness :
    (processWorker alwaysOk emptyFS "w" exampleRouterNoTransports).2
      = some (.keyError "transports")
    ∧ (processWorker alwaysOk emptyFS "w" exampleRouterNoTransports).1.countP isRealmCall = 1
    ∧ (processWorker alwaysOk emptyFS "w" exampleRouterNoTransports).1.countP isRoleCall = 1
    ∧ (processWorker alwaysOk emptyFS "w" exampleRouterNoTransports).1.countP
        isRouterComponentCall = 1 := by
  refine ⟨(C8_missing_transports emptyFS "w" exampleRouterNoTransports rfl rfl rfl).1,
    ((C8_missing_transports emptyFS "w" exampleRouterNoTransports rfl rfl rfl).2.1).trans
      (by rfl),
    ((C8_missing_transports emptyFS "w" exampleRouterNoTransports rfl rfl rfl).2.2.1).trans
      (by rfl),
    ((C8_missing_transports emptyFS "w" exampleRouterNoTransports rfl rfl rfl).2.2.2.1).trans
      (by rfl)⟩

/-- C2 counterexample: the claim says no `start_router_realm_role` call
is issued before every `start_router_realm` call has completed; but for
a router worker with two realms each carrying a role, the first realm's
role call (trace index 2) is issued before the second realm's
`start_router_realm` call (trace index 3). -/
theorem C2_subphase_counterexample :
    ¬ (∀ (i j : Fin exampleRouterTrace.length),
        isRoleCall (exampleRouterTrace.get i) = true →
        isRealmCall (exampleRouterTrace.get j) = true →
        (j : Nat) < (i : Nat)) := by
  intro hall
  have h25 : 2 < exampleRouterTrace.length := by decide
  have h35 : 3 < exampleRouterTrace.length := by decide
  have h := hall ⟨2, h25⟩ ⟨3, h35⟩ (by rfl) (by rfl)
  simp at h

/-- C2 (amended): for every router worker the sub-resource calls are
issued as — for each realm in declaration order, its `start_router_realm`
call followed immediately by that realm's `start_router_realm_role`
calls (so realm and role calls interleave per realm); then all
`start_router_component` calls; then all `start_router_transport` calls.
Every realm or role call precedes every component call, and every
component call precedes every transport call. -/
theorem C2_router_subphases (fs : FS) (w : String) (worker : Dict) (tv : JVal)
    (ht : dget worker "type" = some (.str "router"))
    (hr : (workerRealms worker).all realmWF = true)
    (htv : dget worker "transports" = some tv) :
    processWorker alwaysOk fs w worker
      = (.start_router w (dgetD worker "options" (.obj []))
          :: (genericCalls w worker (dgetD worker "options" (.obj []))
              ++ realmsCalls fs w 1 (workerRealms worker)
              ++ routerComponentsCalls w 1 (workerComponents worker)
              ++ transportsCalls w 1 (asArr tv)), none)
    ∧ (∀ (i j : Fin (processWorker alwaysOk fs w worker).1.length),
        (isRealmCall ((processWorker alwaysOk fs w worker).1.get i)
          || isRoleCall ((processWorker alwaysOk fs w worker).1.get i)) = true →
        isRouterComponentCall ((processWorker alwaysOk fs w worker).1.get j) = true →
        (i : Nat) < (j : Nat))
    ∧ (∀ (i j : Fin (processWorker alwaysOk fs w worker).1.length),
        isRouterComponentCall ((processWorker alwaysOk fs w worker).1.get i) = true →
        isTransportCall ((processWorker alwaysOk fs w worker).1.get j) = true →
        (i : Nat) < (j : Nat)) := by
  have hEq := processWorker_router_eq fs w worker tv ht hr htv
  refine ⟨hEq, ?_, ?_⟩
  · have htr : (processWorker alwaysOk fs w worker).1
        = (.start_router w (dgetD worker "options" (.obj []))
            :: (genericCalls w worker (dgetD worker "options" (.obj []))
                ++ realmsCalls fs w 1 (workerRealms worker)))
          ++ (routerComponentsCalls w 1 (workerComponents worker)
              ++ transportsCalls w 1 (asArr tv)) := by
      rw [hEq]
      simp [List.append_assoc]
    intro i j hp hq
    refine index_separation_fin _ _ htr
        (fun c => isRealmCall c || isRoleCall c) isRouterComponentCall ?_ ?_ i j hp hq
    · intro c hc
      rcases List.mem_cons.mp hc with rfl | hc2
      · rfl
      · rcases List.mem_append.mp hc2 with hc3 | hc3
        · exact (genericCalls_flags hc3).2.2.1
        · exact (realmsCalls_flags hc3).1
    · intro c hc
      rcases List.mem_append.mp hc with hc3 | hc3
      · obtain ⟨cid, cd, rfl⟩ := mem_routerComponentsCalls hc3; rfl
      · obtain ⟨tid, td, rfl⟩ := mem_transportsCalls hc3; rfl
  · have htr : (processWorker alwaysOk fs w worker).1
        = (.start_router w (dgetD worker "options" (.obj []))
            :: ((genericCalls w worker (dgetD worker "options" (.obj []))
                ++ realmsCalls fs w 1 (workerRealms worker))
                ++ routerComponentsCalls w 1 (workerComponents worker)))
          ++ transportsCalls w 1 (asArr tv) := by
      rw [hEq]
      simp [List.append_assoc]
    intro i j hp hq
    refine index_separation_fin _ _ htr _ _ ?_ ?_ i j hp hq
    · intro c hc
      rcases List.mem_cons.mp hc with rfl | hc2
      · rfl
      · rcases List.mem_append.mp hc2 with hc3 | hc3
        · rcases List.mem_append.mp hc3 with hc4 | hc4
          · exact (genericCalls_flags hc4).2.2.2.1
          · exact (realmsCalls_flags hc4).2.1
        · obtain ⟨cid, cd, rfl⟩ := mem_routerComponentsCalls hc3; rfl
    · intro c hc
      obtain ⟨tid, td, rfl⟩ := mem_transportsCalls hc; rfl

/-- C2 witness: the amended phase decomposition applied to the
two-realm example router worker. -/
theorem C2_router_subphases_witness :
    processWorker alwaysOk emptyFS "w" exampleRouterWorker
      = (.start_router "w" (dgetD exampleRouterWorker "options" (.obj []))
          :: (genericCalls "w" exampleRouterWorker
                (dgetD exampleRouterWorker "options" (.obj []))
              ++ realmsCalls emptyFS "w" 1 (workerRealms exampleRouterWorker)
              ++ routerComponentsCalls "w" 1 (workerComponents exampleRouterWorker)
              ++ transportsCalls "w" 1 (asArr (.arr []))), none) :=
  (C2_router_subphases emptyFS "w" exampleRouterWorker (.arr []) rfl rfl rfl).1

/-- C7: a worker whose `type` is outside router/container/guest makes the
sequencer raise before issuing any start call for that worker, and no
call is issued for it or for any subsequent worker in the list. -/
theorem C7_unknown_worker_type (rpcOk : RpcOk) (fs : FS) (n : Nat)
    (ws1 : List JVal) (w : JVal) (ws2 : List JVal) (s : String)
    (hok : (startWorkers rpcOk fs n ws1).2 = none)
    (ht : dget (asObj w) "type" = some (.str s))
    (h1 : s ≠ "router") (h2 : s ≠ "container") (h3 : s ≠ "guest") :
    startWorkers rpcOk fs n (ws1 ++ w :: ws2)
      = ((startWorkers rpcOk fs n ws1).1, some .logicError) := by
  induction ws1 generalizing n with
  | nil =>
      have ht' : dget (resolveId "worker" n (asObj w)).2.1 "type" = some (.str s) := by
        rw [dget_resolveId_ne _ _ _ _ (by decide)]
        exact ht
      rw [List.nil_append]
      show startWorkers rpcOk fs n (w :: ws2) = (([] : List Call), some Err.logicError)
      rw [startWorkers, processWorker_unknown rpcOk fs _ _ s ht' h1 h2 h3]
      rfl
  | cons a rest ih =>
      rw [List.cons_append, startWorkers]
      rw [startWorkers] at hok
      cases hpa : processWorker rpcOk fs (resolveId "worker" n (asObj a)).1
          (resolveId "worker" n (asObj a)).2.1 with
      | mk tr e =>
        rw [hpa] at hok
        cases e with
        | some e0 => simp [seqThen] at hok
        | none =>
            simp only [seqThen] at hok ⊢
            rw [ih _ hok]
            rw [startWorkers, hpa]
            simp [seqThen]

/-- C7 witness: a worker list with a valid guest, then a worker of type
`frobnicator` — the sequencer aborts with the logic error, having issued
only the first worker's call and nothing for the bad worker or the
following one. -/
theorem C7_unknown_worker_type_witness :
    startWorkers alwaysOk emptyFS 1
        ([.obj [("type", JVal.str "guest")]]
          ++ .obj [("type", JVal.str "frobnicator")] :: [.obj [("type", JVal.str "guest")]])
      = ([.start_guest "worker1" [("type", JVal.str "guest")]], some .logicError) := by
  have h := C7_unknown_worker_type alwaysOk emptyFS 1 [.obj [("type", JVal.str "guest")]]
      (.obj [("type", JVal.str "frobnicator")]) [.obj [("type", JVal.str "guest")]]
      "frobnicator" rfl rfl (by decide) (by decide) (by decide)
  exact h.trans (by rfl)

end Crossbar
